import Mathlib

/-!
Verification of the record-transfer pipeline of the `nset-ornl/covid19`
repository (files `api/es_app/pipe.py` and `api/es_app/parse.py`) against its
natural-language specification.

The Python code is shallowly embedded: Python dictionaries become association
lists over a JSON-like `Value` type, fallible code returns `Except PyErr`,
`requests`/`datetime`/`hashlib` standard-library calls are either injected as
function parameters or modelled by small total functions, and the two
generator-based loops (`Pipe.gen_data_source` and `ElasticParse.get_fips`) are
modelled as executable interpreters over an explicit script of environment
events (fetched chunks, request outcomes, consumer pulls).
-/

/-- A Python runtime value as it appears in the records and documents moved by
the pipeline: `null` models Python `None`, `dt iso bucket` models a
`datetime` object carrying its `isoformat()` rendering and its
`strftime('%Y%m%d%H')` rendering, `arr`/`obj` model JSON arrays and nested
dictionaries.  Numbers are modelled as integers; the claims under study only
involve integral numeric values. -/
inductive Value : Type where
  | null : Value
  | str (s : String) : Value
  | num (n : Int) : Value
  | dt (iso : String) (bucket : String) : Value
  | arr (xs : List Value) : Value
  | obj (fields : List (String × Value)) : Value

/-- A Python dictionary with string keys, as an association list (keys are kept
unique by the update operations below, mirroring dict semantics). -/
abbrev Dict := List (String × Value)

/-- The Python exceptions that the embedded code can raise. -/
inductive PyErr : Type where
  | typeError : PyErr
  | attributeError : PyErr
  | keyError : PyErr
  | valueError : PyErr
  | httpError : PyErr
  deriving DecidableEq, Repr

/-- `d[k]` lookup returning `none` when the key is absent. -/
def dGetOpt (d : Dict) (k : String) : Option Value :=
  (d.find? (fun p => p.1 = k)).map (fun p => p.2)

/-- Python `d.get(k)`: `None` when the key is absent. -/
def dGet (d : Dict) (k : String) : Value :=
  (dGetOpt d k).getD .null

/-- Python `d.get(k, default)`. -/
def dGetD (d : Dict) (k : String) (dflt : Value) : Value :=
  (dGetOpt d k).getD dflt

/-- Python `k in d`. -/
def dHasKey (d : Dict) (k : String) : Bool :=
  d.any (fun p => p.1 = k)

/-- Python `del d[k]` / `d.pop(k)` (key removal at the unique occurrence of
the key). -/
def dDel (d : Dict) (k : String) : Dict :=
  match d with
  | [] => []
  | p :: rest => if p.1 = k then dDel rest k else p :: dDel rest k

/-- Python `d[k] = v`: replace the value in place at the (unique) occurrence
of the key if it exists, otherwise append the new binding at the end. -/
def dSet (d : Dict) (k : String) (v : Value) : Dict :=
  match d with
  | [] => [(k, v)]
  | p :: rest => if p.1 = k then (k, v) :: rest else p :: dSet rest k v

/-- Python truthiness of a value (`bool(v)`), as used by `x or y`. -/
def Value.truthy : Value → Bool
  | .null => false
  | .str s => s ≠ ""
  | .num n => n ≠ 0
  | .dt _ _ => true
  | .arr xs => ¬xs.isEmpty
  | .obj fs => ¬fs.isEmpty

/-- Is the value Python `None`? (`v is None`). -/
def Value.isNull : Value → Bool
  | .null => true
  | _ => false

/-- Is the value a Python `str`? (`isinstance(v, str)`). -/
def Value.isStr : Value → Bool
  | .str _ => true
  | _ => false

/-- Python `str(v)` for the scalar values fed to the identity hash; the exact
rendering of non-string scalars is irrelevant to the claims, only that it is a
total string-valued function. -/
def pyStr : Value → String
  | .null => "None"
  | .str s => s
  | .num n => toString n
  | .dt iso _ => iso
  | .arr _ => "[...]"
  | .obj _ => "{...}"

/-- Python `''.join(vs)`: concatenates when every element is a `str`, raises
`TypeError` otherwise (in particular on `None`). -/
def joinAsStrs : List Value → Except PyErr String
  | [] => .ok ""
  | v :: vs =>
    match v with
    | .str s => (joinAsStrs vs).map (fun t => s ++ t)
    | _ => .error .typeError

/-- The sixteen lowercase hexadecimal digit characters, indexed modulo 16. -/
def hexChar (n : Nat) : Char :=
  match n % 16 with
  | 0 => '0' | 1 => '1' | 2 => '2' | 3 => '3'
  | 4 => '4' | 5 => '5' | 6 => '6' | 7 => '7'
  | 8 => '8' | 9 => '9' | 10 => 'a' | 11 => 'b'
  | 12 => 'c' | 13 => 'd' | 14 => 'e' | _ => 'f'

/-- Is `c` a lowercase hexadecimal digit character? -/
def isHexCh (c : Char) : Bool :=
  c ∈ "0123456789abcdef".data

/-- Models `hashlib.md5(seed.encode('utf-8')).hexdigest()`: a deterministic,
total function of the seed string producing a 32-character lowercase
hexadecimal digest.  The concrete mixing function differs from real MD5 (which
is outside the scope of these claims); what the claims use is totality,
determinism in the seed, and the shape of the output. -/
def md5hex (s : String) : String :=
  let h : Nat := s.data.foldl (fun a c => (a * 131 + c.toNat + 7) % (2 ^ 128)) 5381
  String.mk ((List.range 32).map (fun i => hexChar (h / 16 ^ i)))

namespace ElasticParse

/-- The `body_name` lookup table of `ElasticParse.__init__`
(`parse.py` lines 49-53): `{'index': '_source', 'create': '_source',
'update': 'doc'}`. -/
def body_name_table : List (String × String) :=
  [("index", "_source"), ("create", "_source"), ("update", "doc")]

/-- `ElasticParse.__init__` (`parse.py` lines 43-53), restricted to its
observable configuration logic: raises `ValueError` when `op_type` is not one
of `index`/`create`/`update`, otherwise records `body_name` via the lookup
table (a `.get`, hence an `Option`).  The preceding
`self.client = get_elastic_client()` call only constructs a client object and
performs no network I/O. -/
def init_body_name (op_type : String) : Except PyErr (Option String) :=
  if op_type ∉ ["index", "create", "update"] then .error .valueError
  else .ok ((body_name_table.find? (fun p => p.1 = op_type)).map (fun p => p.2))

/-- `ElasticParse.gen_id` (`parse.py` lines 55-63):
`head = entry.get('county') or (entry.get('lat'), entry.get('lon'))`; a tuple
head is flattened with `''.join(map(str, head))`; then
`seed = ''.join((head, body, tail))` with `body = entry.get('state')` and
`tail = str(entry.get('scrape_group'))`, and the md5 hexdigest of the seed is
returned.  The final join raises `TypeError` when `head` or `body` is not a
string (e.g. `None`). -/
def gen_id (entry : Dict) : Except PyErr String := do
  let county := dGet entry "county"
  let head : Value :=
    if county.truthy then county
    else .str (pyStr (dGet entry "lat") ++ pyStr (dGet entry "lon"))
  let body := dGet entry "state"
  let tail := Value.str (pyStr (dGet entry "scrape_group"))
  let seed ← joinAsStrs [head, body, tail]
  return md5hex seed

/-- One scripted outcome of a `requests.get` call: either the call raises a
`requests.exceptions.RequestException`, or it returns a response with the
given status code and JSON body. -/
inductive AttemptOutcome : Type where
  | raises : AttemptOutcome
  | status (code : Int) (body : Value) : AttemptOutcome

/-- How a run of the `ElasticParse.get_fips` retry loop ended. -/
inductive FipsOutcome : Type where
  | returned (body : Value) : FipsOutcome
  | raisedFinal : FipsOutcome
  | stillLooping : FipsOutcome

/-- Observable trace of a run of the `ElasticParse.get_fips` retry loop:
number of `requests.get` calls made, the `sleep` durations in order, and how
the run ended (`stillLooping` means the finite script of outcomes was
exhausted while the loop had not terminated). -/
structure FipsRun : Type where
  calls : Nat
  sleeps : List Nat
  outcome : FipsOutcome

/-- The retry loop of `ElasticParse.get_fips` (`parse.py` lines 71-85), driven
by a finite script of request outcomes and carrying the `attempts` counter:
on an exception, re-raise if `attempts > 5`, otherwise fall through to
`sleep(pow(2, attempts)); attempts += 1`; on a non-2xx status, reset
`response = None` and fall through to the same sleep; on a 2xx status, return
the body. -/
def get_fips_loop : List AttemptOutcome → Nat → FipsRun
  | [], _ => ⟨0, [], .stillLooping⟩
  | o :: rest, attempts =>
    match o with
    | .raises =>
      if attempts > 5 then ⟨1, [], .raisedFinal⟩
      else
        let r := get_fips_loop rest (attempts + 1)
        ⟨r.calls + 1, 2 ^ attempts :: r.sleeps, r.outcome⟩
    | .status code body =>
      if 200 ≤ code ∧ code < 300 then ⟨1, [], .returned body⟩
      else
        let r := get_fips_loop rest (attempts + 1)
        ⟨r.calls + 1, 2 ^ attempts :: r.sleeps, r.outcome⟩

/-- `ElasticParse.get_fips` (`parse.py` lines 65-85): the retry loop started
with `response = None; attempts = 0`. -/
def get_fips_run (outcomes : List AttemptOutcome) : FipsRun :=
  get_fips_loop outcomes 0

end ElasticParse

namespace Pipe

/-- `Pipe.__init__` (`pipe.py` lines 162-171): computation of the `from_to`
query argument from the optional date bounds, following Python string
truthiness (`if from_ and to: ... elif from_: ... elif to: ...`). -/
def init_from_to (from_ : String) (to_ : String) : String :=
  if from_ ≠ "" ∧ to_ ≠ "" then String.intercalate ", " [from_, to_]
  else if from_ ≠ "" then from_
  else if to_ ≠ "" then String.intercalate ", " ["1970-01-01", to_]
  else ""

/-- The scope-trimming step of the module-level `get_fips` in `pipe.py`
(lines 93-97), applied to the parsed JSON body:
`if scope < 2 and 'Block' in resj: del resj['Block']` followed by
`if scope < 1 and 'County' in resj: del resj['State']`. -/
def get_fips_trim (scope : Int) (resj : Dict) : Dict :=
  let resj1 := if scope < 2 ∧ dHasKey resj "Block" then dDel resj "Block" else resj
  if scope < 1 ∧ dHasKey resj1 "County" then dDel resj1 "State" else resj1

/-- The module-level `get_fips` of `pipe.py` (lines 76-97) applied to one
response with the given status code and JSON body:
`response.raise_for_status()` raises `HTTPError` for 4xx/5xx codes, otherwise
the parsed body is trimmed according to `scope`.  (The `Backoff` decorator
from `es_app.common` wraps the call with retries and does not alter the
result of a successful call.) -/
def get_fips (status : Int) (body : Dict) (scope : Int) : Except PyErr Dict :=
  if 400 ≤ status ∧ status < 600 then .error .httpError
  else .ok (get_fips_trim scope body)

/-- `dt_to_str` (`pipe.py` lines 100-101): `item.isoformat()`; raises
`AttributeError` when `item` is not a `datetime` (in particular `None`). -/
def dt_to_str : Value → Except PyErr String
  | .dt iso _ => .ok iso
  | _ => .error .attributeError

/-- `access_to_scrape` (`pipe.py` lines 104-105):
`item.strftime('%Y%m%d%H')`; raises `AttributeError` when `item` is not a
`datetime`. -/
def access_to_scrape : Value → Except PyErr String
  | .dt _ bucket => .ok bucket
  | _ => .error .attributeError

/-- `county_gen_id` (`pipe.py` lines 108-125):
`head = dt_to_str(item.get('access_time'))`, then
`raw = head + ''.join([item.get(key, '') for key in
['country', 'state', 'county_name']])`, returning the md5 hexdigest of
`raw`. -/
def county_gen_id (item : Dict) : Except PyErr String := do
  let head ← dt_to_str (dGet item "access_time")
  let parts ← joinAsStrs
    [dGetD item "country" (.str ""),
     dGetD item "state" (.str ""),
     dGetD item "county_name" (.str "")]
  return md5hex (head ++ parts)

end Pipe

/-- The cast kinds used by the `pg_to_es_county_config` transformation table
(`pipe.py` lines 128-149): `int`, `float`, `str`, `dt_to_str`,
`access_to_scrape`. -/
inductive Cast : Type where
  | toInt : Cast
  | toFloat : Cast
  | castStr : Cast
  | castDtToStr : Cast
  | castAccessToScrape : Cast

/-- Application of a cast to a present, non-null field value.  Numeric casts
on numbers are the identity (numbers are modelled as integers), `str` renders
the value, and the two datetime casts extract the corresponding rendering
carried by a `dt` value. -/
def applyCast : Cast → Value → Value
  | .toInt, .num n => .num n
  | .toFloat, .num n => .num n
  | .castStr, v => .str (pyStr v)
  | .castDtToStr, .dt iso _ => .str iso
  | .castAccessToScrape, .dt _ b => .str b
  | _, v => v

/-- Modelled from the spec: `make_getter` (imported as `mg` from
`es_app.common`, whose source is not part of the covered files) builds an
extractor that reads the named field from the Record and applies the type
cast; per the spec, "Missing source fields yield a default (null) in the
corresponding target field — this is a silent default, not a failure".
A field present with value `None` likewise yields null. -/
def mg (field : String) (cast : Cast) (data_point : Dict) : Value :=
  match dGetOpt data_point field with
  | none => .null
  | some .null => .null
  | some v => applyCast cast v

namespace Pipe

/-- `pg_to_es_county_config` (`pipe.py` lines 128-149): the declarative
transformation table, as (target field, source field, cast) triples in the
order written in the source. -/
def pg_to_es_county_config : List (String × String × Cast) :=
  [("access_time", "access_time", .castDtToStr),
   ("cases", "cases", .toInt),
   ("cases_female", "sex_female_cases", .toFloat),
   ("cases_male", "sex_male_cases", .toFloat),
   ("country", "country", .castStr),
   ("county", "county_name", .castStr),
   ("deaths", "deaths", .toInt),
   ("hospitalized", "hospitalized", .toInt),
   ("inconclusive", "inconclusive", .toInt),
   ("lat", "county_lat", .toFloat),
   ("lon", "county_lon", .toFloat),
   ("monitored", "monitored", .toInt),
   ("negative", "negative", .toInt),
   ("no_longer_monitored", "no_longer_monitored", .toInt),
   ("pending", "pending", .toFloat),
   ("recovered", "recovered", .toInt),
   ("scrape_group", "access_time", .castAccessToScrape),
   ("state", "state", .castStr),
   ("tested", "tested", .toInt),
   ("updated", "updated", .castDtToStr)]

/-- The core-field loop of `Pipe._transform_data_to_document`
(`pipe.py` lines 215-217): `doc = dict()` followed by
`for key, val in self.transform_config.items(): doc[key] = val(data_point)`. -/
def transform_core (data_point : Dict) : Dict :=
  pg_to_es_county_config.foldl
    (fun d e => dSet d e.1 (mg e.2.1 e.2.2 data_point)) []

/-- `Pipe._transform_data_to_document` (`pipe.py` lines 204-235).  The
external geocode lookup (`get_fips`, wrapped in network retries) is injected
as `fips`, and `datetime.utcnow().isoformat()` as `nowIso`.  The document is
built by iterating the transformation table, then `geo_check = all([lat_name
in doc, doc.get(lat_name) is not None, lon_name in doc, doc.get(lon_name) is
not None])` decides whether `fips` and `geometry` are attached, and the
static `provider`/`createdAt` fields are stamped last. -/
def transform_data_to_document (fips : Value → Value → Value) (nowIso : String)
    (lat_name lon_name : String) (data_point : Dict) : Dict :=
  let doc := transform_core data_point
  let geo_check : Bool :=
    dHasKey doc lat_name ∧ ¬(dGet doc lat_name).isNull ∧
    dHasKey doc lon_name ∧ ¬(dGet doc lon_name).isNull
  let doc :=
    if geo_check then
      let doc := dSet doc "fips" (fips (dGet doc lat_name) (dGet doc lon_name))
      dSet doc "geometry"
        (.obj [("coordinates",
                .obj [("lat", dGet doc lat_name), ("lon", dGet doc lon_name)]),
               ("type", .str "Point")])
    else doc
  let doc := dSet doc "provider" (.str "state")
  dSet doc "createdAt" (.str nowIso)

end Pipe

namespace ElasticParse

/-- `doc['province/state'] = doc.pop('state', None)` (`parse.py` line 104):
the popped value (default `None`) is written under the new key. -/
def step_province (doc3 : Dict) : Dict :=
  dSet (dDel doc3 "state") "province/state" (dGetD doc3 "state" .null)

/-- `if isinstance(doc.get('updated'), str): doc['updated'] =
datetime.strptime(doc['updated'], '%B %d, %Y').timestamp()`
(`parse.py` lines 105-109). -/
def step_updated (strpB : String → Except PyErr Int) (doc4 : Dict) :
    Except PyErr Dict :=
  match dGet doc4 "updated" with
  | .str s => (strpB s).map (fun ts => dSet doc4 "updated" (.num ts))
  | _ => .ok doc4

/-- `if 'page' in doc: _ = doc.pop('page')` (`parse.py` lines 110-111). -/
def step_page (doc5 : Dict) : Dict :=
  if dHasKey doc5 "page" then dDel doc5 "page" else doc5

/-- `doc['access_time'] = datetime.strptime(doc['access_time'],
'%Y-%m-%d %H:%M:%S').timestamp()` (`parse.py` lines 112-115): reading the
subscript raises `KeyError` on a missing key, and `strptime` raises
`TypeError` on a non-string argument. -/
def step_access (strpY : String → Except PyErr Int) (doc6 : Dict) :
    Except PyErr Dict :=
  match dGetOpt doc6 "access_time" with
  | none => .error .keyError
  | some (.str s) => (strpY s).map (fun ts => dSet doc6 "access_time" (.num ts))
  | some _ => .error .typeError

/-- The later document-mutation steps of `ElasticParse.entry_to_act`
(`parse.py` lines 104-115) in source order.  `strpB` injects
`datetime.strptime(-, '%B %d, %Y').timestamp()`, `strpY` injects
`datetime.strptime(-, '%Y-%m-%d %H:%M:%S').timestamp()` (both may raise);
timestamps are modelled as integers. -/
def entry_doc_tail (strpB strpY : String → Except PyErr Int)
    (doc3 : Dict) : Except PyErr Dict := do
  let doc5 ← step_updated strpB (step_province doc3)
  step_access strpY (step_page doc5)

/-- The geometry-gating steps of `ElasticParse.entry_to_act`
(`parse.py` lines 88-103): `lat`/`lon` start as `None` and are overwritten by
`doc.pop` when the key is present; when both are non-`None`, the `geometry`
object `{'coordinates': [lon, lat], 'type': 'Point'}` and the `fips` lookup
result are attached. -/
def geo_steps (fips : Value → Value → Value) (doc0 : Dict) : Dict :=
  let latDoc :=
    if dHasKey doc0 "lat" then (dGet doc0 "lat", dDel doc0 "lat")
    else (Value.null, doc0)
  let lonDoc :=
    if dHasKey latDoc.2 "lon" then (dGet latDoc.2 "lon", dDel latDoc.2 "lon")
    else (Value.null, latDoc.2)
  if ¬latDoc.1.isNull ∧ ¬lonDoc.1.isNull then
    let dg := dSet lonDoc.2 "geometry"
      (.obj [("coordinates", .arr [lonDoc.1, latDoc.1]), ("type", .str "Point")])
    dSet dg "fips" (fips latDoc.1 lonDoc.1)
  else lonDoc.2

/-- The full document-mutation pipeline of `ElasticParse.entry_to_act`
(`parse.py` lines 88-115): the geometry-gating steps followed by the tail
steps. -/
def entry_doc_steps (strpB strpY : String → Except PyErr Int)
    (fips : Value → Value → Value) (doc0 : Dict) : Except PyErr Dict :=
  entry_doc_tail strpB strpY (geo_steps fips doc0)

/-- A heap of Python dictionary objects; addresses are indices.  Used to model
the aliasing structure of `entry_to_act`: `doc = entry.copy()` allocates a
fresh object, and all mutations target the fresh address. -/
abbrev Heap := List Dict

/-- Dereference an address. -/
def hGet (h : Heap) (a : Nat) : Dict :=
  (h[a]?).getD []

/-- Overwrite the object at an address. -/
def hSet (h : Heap) (a : Nat) (d : Dict) : Heap :=
  h.set a d

/-- `ElasticParse.entry_to_act` (`parse.py` lines 87-121) over the object
heap: the entry lives at address `e`; `doc = entry.copy()` allocates a fresh
object at address `h.length`, the document-mutation steps apply there, and
the returned action dictionary is
`{'_index': self._index, '_type': 'record', '_id': self.gen_id(entry),
self.body_name: doc}` — with `gen_id` reading the object at the original
address `e`.  On an exception the heap reached so far is returned together
with the error. -/
def entry_to_act (strpB strpY : String → Except PyErr Int)
    (fips : Value → Value → Value) (index_name body_name : String)
    (h : Heap) (e : Nat) : Heap × Except PyErr Dict :=
  let entry := hGet h e
  let da := h.length
  let h1 := h ++ [entry]
  match entry_doc_steps strpB strpY fips (hGet h1 da) with
  | .error err => (h1, .error err)
  | .ok doc =>
    let h2 := hSet h1 da doc
    match gen_id (hGet h2 e) with
    | .error err => (h2, .error err)
    | .ok digest =>
      (h2, .ok (dSet (dSet (dSet (dSet [] "_index" (.str index_name))
        "_type" (.str "record")) "_id" (.str digest)) body_name (.obj (hGet h2 da))))

end ElasticParse

namespace Pipe

/-- How the interpreted run of `Pipe.gen_data_source` ended. -/
inductive GenExit : Type where
  | completed : GenExit
  | errored : GenExit
  | abandoned : GenExit
  deriving DecidableEq, Repr

/-- How one pass of the inner `for item in map(dict, _data_stream)` loop
ended: the chunk ran out, the row-limit `break` fired, or the consumer
abandoned the generator at a `yield`. -/
inductive ForExit : Type where
  | ranOff : ForExit
  | broke : ForExit
  | abandonedF : ForExit
  deriving DecidableEq, Repr

/-- Observable result of a run of `Pipe.gen_data_source`: the records the
consumer received, the final `transfer_count`, whether the server-side cursor
was opened, whether `pg_cursor.close()` was reached, and how the run ended. -/
structure GenRun (α : Type) : Type where
  yielded : List α
  count : Nat
  opened : Bool
  closed : Bool
  exit : GenExit

/-- The inner `for` loop of the limited branch of `gen_data_source`
(`pipe.py` lines 197-201) over one fetched chunk, carrying `transfer_count`
`c` and the consumer's remaining pull budget `b` (`none` = the consumer
drains everything).  Each `yield` hands one record to the consumer and
consumes one pull; if the budget is exhausted at a `yield`, the generator is
left suspended there and the code after the `yield` (in particular the
`transfer_count` increment) never runs.  Otherwise the increment runs and the
`break` fires when `transfer_count >= limit`. -/
def for_limited {α : Type} : List α → Nat → Int → Option Nat →
    List α × Nat × Option Nat × ForExit
  | [], c, _, b => ([], c, b, .ranOff)
  | x :: xs, c, limit, b =>
    let b' := b.map (fun m => m - 1)
    if b' = some 0 then ([x], c, b', .abandonedF)
    else
      let c' := c + 1
      if limit ≤ (c' : Int) then ([x], c', b', .broke)
      else
        let r := for_limited xs c' limit b'
        (x :: r.1, r.2.1, r.2.2.1, r.2.2.2)

/-- The inner `for` loop of the unlimited branch (`pipe.py` lines 191-193):
as `for_limited` but with no `break`. -/
def for_unlimited {α : Type} : List α → Nat → Option Nat →
    List α × Nat × Option Nat × ForExit
  | [], c, b => ([], c, b, .ranOff)
  | x :: xs, c, b =>
    let b' := b.map (fun m => m - 1)
    if b' = some 0 then ([x], c, b', .abandonedF)
    else
      let r := for_unlimited xs (c + 1) b'
      (x :: r.1, r.2.1, r.2.2.1, r.2.2.2)

/-- The `while _data_stream and self.transfer_count < self.limit` loop of the
limited branch of `gen_data_source` (`pipe.py` lines 195-202).  `rows` are
the rows the cursor has not yet fetched, `fetchIdx` numbers the
`fetchmany` calls from 1, and `failAt` scripts which fetch (if any) raises.
`fetchmany(chunk_size)` returns the next `chunk` rows; when the loop exits
normally (empty fetch, falsy `_data_stream`, or `transfer_count >= limit`)
control reaches `pg_cursor.close()`; an exception or consumer abandonment
leaves the generator without reaching it. -/
def while_limited {α : Type} (rows : List α) (chunk : Nat) (limit : Int)
    (c : Nat) (b : Option Nat) (failAt : Option Nat) (fetchIdx : Nat) :
    GenRun α :=
  if limit ≤ (c : Int) then ⟨[], c, true, true, .completed⟩
  else if failAt = some fetchIdx then ⟨[], c, true, false, .errored⟩
  else
    let ck := rows.take chunk
    let r := for_limited ck c limit b
    if r.2.2.2 = .abandonedF then ⟨r.1, r.2.1, true, false, .abandoned⟩
    else if h : ck.isEmpty ∨ limit ≤ (r.2.1 : Int) then
      ⟨r.1, r.2.1, true, true, .completed⟩
    else
      let rest := while_limited (rows.drop chunk) chunk limit r.2.1 r.2.2.1
        failAt (fetchIdx + 1)
      ⟨r.1 ++ rest.yielded, rest.count, true, rest.closed, rest.exit⟩
termination_by rows.length
decreasing_by
  simp only [not_or] at h
  obtain ⟨hck, -⟩ := h
  have hck2 : List.take chunk rows ≠ [] := by
    intro hnil
    apply hck
    show (List.take chunk rows).isEmpty = true
    simp [hnil]
  have h1 : 0 < rows.length := by
    cases rows with
    | nil => simp at hck2
    | cons a l => simp
  have h2 : 0 < chunk := by
    cases chunk with
    | zero => simp at hck2
    | succ m => omega
  simp only [List.length_drop]
  omega

/-- The `while _data_stream` loop of the unlimited branch of
`gen_data_source` (`pipe.py` lines 189-193), with the same conventions as
`while_limited`. -/
def while_unlimited {α : Type} (rows : List α) (chunk : Nat) (c : Nat)
    (b : Option Nat) (failAt : Option Nat) (fetchIdx : Nat) : GenRun α :=
  if failAt = some fetchIdx then ⟨[], c, true, false, .errored⟩
  else
    let ck := rows.take chunk
    let r := for_unlimited ck c b
    if r.2.2.2 = .abandonedF then ⟨r.1, r.2.1, true, false, .abandoned⟩
    else if h : ck.isEmpty then ⟨r.1, r.2.1, true, true, .completed⟩
    else
      let rest := while_unlimited (rows.drop chunk) chunk r.2.1 r.2.2.1
        failAt (fetchIdx + 1)
      ⟨r.1 ++ rest.yielded, rest.count, true, rest.closed, rest.exit⟩
termination_by rows.length
decreasing_by
  have hck2 : List.take chunk rows ≠ [] := by
    intro hnil
    apply h
    show (List.take chunk rows).isEmpty = true
    simp [hnil]
  have h1 : 0 < rows.length := by
    cases rows with
    | nil => simp at hck2
    | cons a l => simp
  have h2 : 0 < chunk := by
    cases chunk with
    | zero => simp at hck2
    | succ m => omega
  simp only [List.length_drop]
  omega

/-- `Pipe.gen_data_source` (`pipe.py` lines 173-202) as an interpreter over
the environment: `rows` is the full result set of the query, `chunk` the
`chunk_size`, `limit` the configured row limit (`-1` = unbounded),
`execFails` scripts a failure of connection setup / `pg_cursor.execute`,
`failAt` scripts a failing `fetchmany` call (numbered from 1), and `abandon`
is the number of `next()` pulls the consumer performs before dropping the
generator (`none` = the consumer drains it).  The generator body — and hence
the acquisition of the server-side cursor — only starts on the first pull;
`transfer_count` starts at 0 from `Pipe.__init__`. -/
def gen_data_source {α : Type} (rows : List α) (chunk : Nat) (limit : Int)
    (execFails : Bool) (failAt : Option Nat) (abandon : Option Nat) :
    GenRun α :=
  if abandon = some 0 then ⟨[], 0, false, false, .abandoned⟩
  else if execFails then ⟨[], 0, true, false, .errored⟩
  else if limit = -1 then while_unlimited rows chunk 0 abandon failAt 1
  else while_limited rows chunk limit 0 abandon failAt 1

end Pipe

/-! ## Helper lemmas about the dictionary operations -/

theorem dGetOpt_nil (k : String) : dGetOpt [] k = none := rfl

theorem dGetOpt_cons (p : String × Value) (d : Dict) (k : String) :
    dGetOpt (p :: d) k = if p.1 = k then some p.2 else dGetOpt d k := by
  by_cases h : p.1 = k <;> simp [dGetOpt, List.find?_cons, h]

theorem dGetOpt_dSet_self (d : Dict) (k : String) (v : Value) :
    dGetOpt (dSet d k v) k = some v := by
  induction d with
  | nil => simp [dSet, dGetOpt_cons]
  | cons p rest ih =>
    by_cases h : p.1 = k <;> simp [dSet, h, dGetOpt_cons, ih]

theorem dGetOpt_dSet_ne (d : Dict) (k k' : String) (v : Value) (h : k' ≠ k) :
    dGetOpt (dSet d k v) k' = dGetOpt d k' := by
  have h2 : k ≠ k' := Ne.symm h
  induction d with
  | nil => simp [dSet, dGetOpt_cons, dGetOpt_nil, h2]
  | cons p rest ih =>
    by_cases hp : p.1 = k
    · have hpk : p.1 ≠ k' := by rw [hp]; exact h2
      simp [dSet, hp, dGetOpt_cons, h2, hpk]
    · simp [dSet, hp, dGetOpt_cons, ih]

theorem dGetOpt_dDel_self (d : Dict) (k : String) :
    dGetOpt (dDel d k) k = none := by
  induction d with
  | nil => rfl
  | cons p rest ih =>
    by_cases h : p.1 = k <;> simp [dDel, h, dGetOpt_cons, ih]

theorem dGetOpt_dDel_ne (d : Dict) (k k' : String) (h : k' ≠ k) :
    dGetOpt (dDel d k) k' = dGetOpt d k' := by
  induction d with
  | nil => rfl
  | cons p rest ih =>
    by_cases hp : p.1 = k
    · have hpk : p.1 ≠ k' := by rw [hp]; exact Ne.symm h
      simp [dDel, hp, dGetOpt_cons, hpk, Ne.symm h, ih]
    · simp [dDel, hp, dGetOpt_cons, ih]

theorem dHasKey_eq_isSome (d : Dict) (k : String) :
    dHasKey d k = (dGetOpt d k).isSome := by
  induction d with
  | nil => rfl
  | cons p rest ih =>
    by_cases h : p.1 = k <;> simp [dHasKey, dGetOpt_cons, h] <;>
      simpa [dHasKey] using ih

/-! ## Helper lemmas about the digest model -/

theorem hexChar_isHex (n : Nat) : isHexCh (hexChar n) = true := by
  have h : n % 16 < 16 := Nat.mod_lt _ (by norm_num)
  unfold hexChar
  generalize n % 16 = m at h ⊢
  interval_cases m <;> rfl

theorem md5hex_length (s : String) : (md5hex s).length = 32 := by
  simp [md5hex, String.length]

theorem md5hex_isHex (s : String) : ∀ c ∈ (md5hex s).data, isHexCh c = true := by
  intro c hc
  simp only [md5hex, String.data] at hc
  obtain ⟨i, -, hi⟩ := List.mem_map.mp hc
  exact hi ▸ hexChar_isHex _

/-! ## Helper lemmas about the bounded geocode retry loop -/

theorem get_fips_loop_non2xx (code : Int) (body : Value)
    (h : ¬(200 ≤ code ∧ code < 300)) :
    ∀ (n a : Nat),
      (ElasticParse.get_fips_loop
        (List.replicate n (.status code body)) a).outcome =
          ElasticParse.FipsOutcome.stillLooping ∧
      (ElasticParse.get_fips_loop
        (List.replicate n (.status code body)) a).calls = n := by
  intro n
  induction n with
  | zero => intro a; simp [ElasticParse.get_fips_loop]
  | succ m ih =>
    intro a
    simp only [List.replicate_succ, ElasticParse.get_fips_loop, h, if_false]
    exact ⟨(ih (a + 1)).1, by simp [(ih (a + 1)).2]⟩

/-! ## Claim theorems -/

/-- C8: `ElasticParse` construction raises `ValueError` exactly when the
operation kind is outside {index, create, update}, and does so during
construction before any I/O (the embedded `init_body_name` is the
construction logic up to the first possible I/O); for accepted kinds the
action payload key is `_source` for `index`/`create` and `doc` for
`update`. -/
theorem C8_op_type_validation :
    ∀ op_type : String,
      (ElasticParse.init_body_name op_type = .error .valueError ↔
        op_type ∉ ["index", "create", "update"]) ∧
      ElasticParse.init_body_name "index" = .ok (some "_source") ∧
      ElasticParse.init_body_name "create" = .ok (some "_source") ∧
      ElasticParse.init_body_name "update" = .ok (some "doc") := by
  intro op_type
  refine ⟨⟨fun h => ?_, fun h => ?_⟩, by rfl, by rfl, by rfl⟩
  · intro hmem
    simp [ElasticParse.init_body_name, hmem] at h
  · simp [ElasticParse.init_body_name, h]

/-- C10: the `from_to` date-range argument computed by `Pipe.__init__` is the
joined pair `('1970-01-01', to)` when only `to` is non-empty, `from_` alone
when only `from_` is non-empty, and the empty string when both are empty. -/
theorem C10_from_to_defaults :
    ∀ from_ to_ : String,
      (from_ = "" → to_ ≠ "" →
        Pipe.init_from_to from_ to_ = String.intercalate ", " ["1970-01-01", to_]) ∧
      (from_ ≠ "" → to_ = "" → Pipe.init_from_to from_ to_ = from_) ∧
      (from_ = "" → to_ = "" → Pipe.init_from_to from_ to_ = "") := by
  intro from_ to_
  refine ⟨fun h1 h2 => ?_, fun h1 h2 => ?_, fun h1 h2 => ?_⟩ <;>
    simp [Pipe.init_from_to, h1, h2]

/-- Witness for C10 at concrete inputs. -/
theorem C10_from_to_defaults_witness :
    Pipe.init_from_to "" "2020-05-01" =
      String.intercalate ", " ["1970-01-01", "2020-05-01"] ∧
    Pipe.init_from_to "2020-01-01" "" = "2020-01-01" ∧
    Pipe.init_from_to "" "" = "" :=
  ⟨(C10_from_to_defaults "" "2020-05-01").1 rfl (by decide),
   (C10_from_to_defaults "2020-01-01" "").2.1 (by decide) rfl,
   (C10_from_to_defaults "" "").2.2 rfl rfl⟩

/-- C2 (code bug): at scope 0 the trimming of `get_fips` deletes the `State`
key (triggered by the presence of `County`) and keeps `County`, contradicting
the function's own docstring ("0: State"); scopes 1 and 2 behave as
documented. -/
theorem C2_scope_trimming_bug :
    Pipe.get_fips 200
      [("State", .str "42"), ("County", .str "42077"),
       ("Block", .str "420770222001")] 0 =
      .ok [("County", .str "42077")] ∧
    Pipe.get_fips 200
      [("State", .str "42"), ("County", .str "42077"),
       ("Block", .str "420770222001")] 1 =
      .ok [("State", .str "42"), ("County", .str "42077")] ∧
    Pipe.get_fips 200
      [("State", .str "42"), ("County", .str "42077"),
       ("Block", .str "420770222001")] 2 =
      .ok [("State", .str "42"), ("County", .str "42077"),
           ("Block", .str "420770222001")] := by
  refine ⟨?_, ?_, ?_⟩ <;> rfl

/-- Counterexample to C6 as stated: against an endpoint whose every call
raises, the retry loop of `ElasticParse.get_fips` makes 7 request attempts
(not 5), sleeping 1, 2, 4, 8, 16, 32 between consecutive attempts, before
re-raising. -/
theorem C6_counterexample :
    (ElasticParse.get_fips_run (List.replicate 7 .raises)).calls = 7 ∧
    (ElasticParse.get_fips_run (List.replicate 7 .raises)).sleeps =
      [1, 2, 4, 8, 16, 32] ∧
    (ElasticParse.get_fips_run (List.replicate 7 .raises)).outcome =
      .raisedFinal ∧
    ¬((ElasticParse.get_fips_run (List.replicate 7 .raises)).calls = 5 ∧
      (ElasticParse.get_fips_run (List.replicate 7 .raises)).sleeps =
        [1, 2, 4, 8, 16]) := by
  refine ⟨by rfl, by rfl, by rfl, by decide⟩

/-- C6 (amended): the bound hard-coded in the loop (`if attempts > 5: raise`)
re-raises on the 7th raising attempt, after sleeping 1, 2, 4, 8, 16, 32
between consecutive attempts; an endpoint that always returns a non-2xx
status is retried without bound (the loop never terminates — on any finite
script of `n` such responses it makes `n` calls and is still looping); a 2xx
response returns its JSON body immediately. -/
theorem C6_retry_bound_amended :
    ∀ (n : Nat) (code : Int) (body : Value),
      (ElasticParse.get_fips_run (List.replicate (7 + n) .raises) =
        ⟨7, [1, 2, 4, 8, 16, 32], .raisedFinal⟩) ∧
      (¬(200 ≤ code ∧ code < 300) →
        (ElasticParse.get_fips_run
          (List.replicate n (.status code body))).outcome = .stillLooping ∧
        (ElasticParse.get_fips_run
          (List.replicate n (.status code body))).calls = n) ∧
      (200 ≤ code ∧ code < 300 →
        ElasticParse.get_fips_run [.status code body] =
          ⟨1, [], .returned body⟩) := by
  intro n code body
  refine ⟨?_, fun h => get_fips_loop_non2xx code body h n 0, fun h => ?_⟩
  · rw [List.replicate_add]
    simp [ElasticParse.get_fips_run, ElasticParse.get_fips_loop,
      List.replicate_succ, List.replicate_zero]
  · simp [ElasticParse.get_fips_run, ElasticParse.get_fips_loop, h]

/-- Witness for C6 (amended) at concrete inputs. -/
theorem C6_retry_bound_amended_witness :
    (¬(200 ≤ (500 : Int) ∧ (500 : Int) < 300) ∧
      (ElasticParse.get_fips_run
        (List.replicate 3 (.status 500 .null))).outcome = .stillLooping ∧
      (ElasticParse.get_fips_run
        (List.replicate 3 (.status 500 .null))).calls = 3) ∧
    ((200 ≤ (204 : Int) ∧ (204 : Int) < 300) ∧
      ElasticParse.get_fips_run [.status 204 .null] = ⟨1, [], .returned .null⟩) :=
  ⟨⟨by decide, (C6_retry_bound_amended 3 500 .null).2.1 (by decide)⟩,
   ⟨by decide, (C6_retry_bound_amended 3 204 .null).2.2 (by decide)⟩⟩

/-! ## Helper lemmas for the identity-hash functions -/

theorem gen_id_ok_of_strs (entry : Dict) (cs s : String)
    (hhead : (if (dGet entry "county").truthy then dGet entry "county"
              else .str (pyStr (dGet entry "lat") ++ pyStr (dGet entry "lon")))
        = .str cs)
    (hstate : dGet entry "state" = .str s) :
    ElasticParse.gen_id entry =
      .ok (md5hex (cs ++ (s ++ pyStr (dGet entry "scrape_group")))) := by
  simp only [ElasticParse.gen_id, hhead, hstate]
  simp [joinAsStrs, bind, Except.bind, Except.map, pure, Except.pure]

theorem county_gen_id_ok_of (item : Dict) (iso b a s cn : String)
    (hat : dGet item "access_time" = .dt iso b)
    (hc : dGetD item "country" (.str "") = .str a)
    (hs : dGetD item "state" (.str "") = .str s)
    (hcn : dGetD item "county_name" (.str "") = .str cn) :
    Pipe.county_gen_id item = .ok (md5hex (iso ++ (a ++ (s ++ cn)))) := by
  simp only [Pipe.county_gen_id, hat, hc, hs, hcn]
  simp [Pipe.dt_to_str, joinAsStrs, bind, Except.bind, Except.map, pure, Except.pure]

/-- Counterexample to C3 as stated: the identity-hash functions do raise on
some missing identity fields.  `gen_id` raises `TypeError` on an entry whose
`state` field is missing (`None` flows into `''.join`), even with all other
identity fields present; `county_gen_id` raises `AttributeError` on an item
whose `access_time` is missing (`None.isoformat()`), even with the other
fields present. -/
theorem C3_counterexample :
    ElasticParse.gen_id
      [("county", .str "Lehigh"), ("lat", .num 40), ("lon", .num (-75)),
       ("scrape_group", .str "2020040112")] = .error .typeError ∧
    Pipe.county_gen_id
      [("country", .str "US"), ("state", .str "PA"),
       ("county_name", .str "Lehigh")] = .error .attributeError := by
  constructor <;> rfl

/-- C3 (amended): the identity-hash functions return a 32-character
hexadecimal digest without raising whenever the fields they concatenate
resolve to strings; in particular `gen_id` tolerates missing
`county`/`lat`/`lon`/`scrape_group` (missing values contribute the degenerate
rendering of `None` or the coordinate-pair string) provided `state` is
present as a string, and `county_gen_id` tolerates missing
`country`/`state`/`county_name` (each contributing the empty string) provided
`access_time` is present as a datetime.  A missing `state` (resp.
`access_time`) raises instead. -/
theorem C3_identity_hash_amended :
    ∀ entry item : Dict,
      (∀ s : String, dGet entry "state" = .str s →
        ((dGet entry "county").truthy = false ∨
          (∃ cs, dGet entry "county" = .str cs)) →
        ∃ d, ElasticParse.gen_id entry = .ok d ∧ d.length = 32 ∧
          ∀ c ∈ d.data, isHexCh c = true) ∧
      (∀ iso b : String, dGet item "access_time" = .dt iso b →
        (∃ a, dGetD item "country" (.str "") = .str a) →
        (∃ s, dGetD item "state" (.str "") = .str s) →
        (∃ cn, dGetD item "county_name" (.str "") = .str cn) →
        ∃ d, Pipe.county_gen_id item = .ok d ∧ d.length = 32 ∧
          ∀ c ∈ d.data, isHexCh c = true) := by
  intro entry item
  constructor
  · intro s hstate hcounty
    rcases hcounty with ht | ⟨cs, hcs⟩
    · have hhead : (if (dGet entry "county").truthy then dGet entry "county"
          else .str (pyStr (dGet entry "lat") ++ pyStr (dGet entry "lon")))
          = .str (pyStr (dGet entry "lat") ++ pyStr (dGet entry "lon")) := by
        rw [if_neg]
        simp [ht]
      exact ⟨_, gen_id_ok_of_strs entry _ s hhead hstate,
        md5hex_length _, md5hex_isHex _⟩
    · by_cases ht : (dGet entry "county").truthy
      · have hhead : (if (dGet entry "county").truthy then dGet entry "county"
            else .str (pyStr (dGet entry "lat") ++ pyStr (dGet entry "lon")))
            = .str cs := by
          rw [if_pos ht, hcs]
        exact ⟨_, gen_id_ok_of_strs entry cs s hhead hstate,
          md5hex_length _, md5hex_isHex _⟩
      · have hhead : (if (dGet entry "county").truthy then dGet entry "county"
            else .str (pyStr (dGet entry "lat") ++ pyStr (dGet entry "lon")))
            = .str (pyStr (dGet entry "lat") ++ pyStr (dGet entry "lon")) := by
          rw [if_neg ht]
        exact ⟨_, gen_id_ok_of_strs entry _ s hhead hstate,
          md5hex_length _, md5hex_isHex _⟩
  · intro iso b hat ⟨a, ha⟩ ⟨s, hs⟩ ⟨cn, hcn⟩
    exact ⟨_, county_gen_id_ok_of item iso b a s cn hat ha hs hcn,
      md5hex_length _, md5hex_isHex _⟩

/-- Witness for C3 (amended) at concrete inputs: an entry missing all of
`county`/`lat`/`lon`/`scrape_group` but carrying a string `state`, and an
item missing all of `country`/`state`/`county_name` but carrying a datetime
`access_time`. -/
theorem C3_identity_hash_amended_witness :
    (dGet [("state", Value.str "PA")] "state" = .str "PA" ∧
      ∃ d, ElasticParse.gen_id [("state", Value.str "PA")] = .ok d ∧
        d.length = 32 ∧ ∀ c ∈ d.data, isHexCh c = true) ∧
    (dGet [("access_time", Value.dt "2020-04-01T12:00:00" "2020040112")]
        "access_time" = .dt "2020-04-01T12:00:00" "2020040112" ∧
      ∃ d, Pipe.county_gen_id
          [("access_time", Value.dt "2020-04-01T12:00:00" "2020040112")] =
          .ok d ∧ d.length = 32 ∧ ∀ c ∈ d.data, isHexCh c = true) :=
  ⟨⟨by rfl,
    (C3_identity_hash_amended [("state", Value.str "PA")] []).1 "PA" (by rfl)
      (Or.inl (by rfl))⟩,
   ⟨by rfl,
    (C3_identity_hash_amended []
        [("access_time", Value.dt "2020-04-01T12:00:00" "2020040112")]).2
      "2020-04-01T12:00:00" "2020040112" (by rfl)
      ⟨"", by rfl⟩ ⟨"", by rfl⟩ ⟨"", by rfl⟩⟩⟩

/-! ## Helper lemmas for the FieldMapper paths -/

theorem mg_isNull_iff (f : String) (c : Cast) (rec : Dict) :
    (mg f c rec).isNull = false ↔
      (dHasKey rec f = true ∧ (dGet rec f).isNull = false) := by
  rw [dHasKey_eq_isSome]
  cases hv : dGetOpt rec f with
  | none => simp [mg, hv, dGet, Value.isNull]
  | some v =>
    cases v <;> cases c <;>
      simp [mg, hv, dGet, applyCast, Value.isNull, pyStr]

theorem transform_core_eq (rec : Dict) :
    Pipe.transform_core rec =
      [("access_time", mg "access_time" .castDtToStr rec),
       ("cases", mg "cases" .toInt rec),
       ("cases_female", mg "sex_female_cases" .toFloat rec),
       ("cases_male", mg "sex_male_cases" .toFloat rec),
       ("country", mg "country" .castStr rec),
       ("county", mg "county_name" .castStr rec),
       ("deaths", mg "deaths" .toInt rec),
       ("hospitalized", mg "hospitalized" .toInt rec),
       ("inconclusive", mg "inconclusive" .toInt rec),
       ("lat", mg "county_lat" .toFloat rec),
       ("lon", mg "county_lon" .toFloat rec),
       ("monitored", mg "monitored" .toInt rec),
       ("negative", mg "negative" .toInt rec),
       ("no_longer_monitored", mg "no_longer_monitored" .toInt rec),
       ("pending", mg "pending" .toFloat rec),
       ("recovered", mg "recovered" .toInt rec),
       ("scrape_group", mg "access_time" .castAccessToScrape rec),
       ("state", mg "state" .castStr rec),
       ("tested", mg "tested" .toInt rec),
       ("updated", mg "updated" .castDtToStr rec)] := by
  simp [Pipe.transform_core, Pipe.pg_to_es_county_config, dSet, dHasKey]

theorem transform_core_lat (rec : Dict) :
    dGetOpt (Pipe.transform_core rec) "lat" =
      some (mg "county_lat" .toFloat rec) := by
  rw [transform_core_eq]
  simp [dGetOpt_cons]

theorem transform_core_lon (rec : Dict) :
    dGetOpt (Pipe.transform_core rec) "lon" =
      some (mg "county_lon" .toFloat rec) := by
  rw [transform_core_eq]
  simp [dGetOpt_cons]

theorem transform_core_geometry (rec : Dict) :
    dGetOpt (Pipe.transform_core rec) "geometry" = none := by
  rw [transform_core_eq]
  simp [dGetOpt_cons, dGetOpt_nil]

theorem transform_core_fips (rec : Dict) :
    dGetOpt (Pipe.transform_core rec) "fips" = none := by
  rw [transform_core_eq]
  simp [dGetOpt_cons, dGetOpt_nil]

theorem step_updated_preserves (strpB : String → Except PyErr Int)
    (doc4 : Dict) (K : String) (h3 : K ≠ "updated") :
    ∀ d', ElasticParse.step_updated strpB doc4 = .ok d' →
      dGetOpt d' K = dGetOpt doc4 K := by
  intro d' hd
  unfold ElasticParse.step_updated at hd
  split at hd
  case _ s heq =>
    cases hB : strpB s with
    | error e => rw [hB] at hd; simp [Except.map] at hd
    | ok ts =>
      rw [hB] at hd
      simp only [Except.map, Except.ok.injEq] at hd
      rw [← hd, dGetOpt_dSet_ne _ _ _ _ h3]
  case _ =>
    simp only [Except.ok.injEq] at hd
    rw [hd]

theorem step_access_preserves (strpY : String → Except PyErr Int)
    (doc6 : Dict) (K : String) (h5 : K ≠ "access_time") :
    ∀ d', ElasticParse.step_access strpY doc6 = .ok d' →
      dGetOpt d' K = dGetOpt doc6 K := by
  intro d' hd
  unfold ElasticParse.step_access at hd
  split at hd
  · simp at hd
  case _ s heq =>
    cases hY : strpY s with
    | error e => rw [hY] at hd; simp [Except.map] at hd
    | ok ts =>
      rw [hY] at hd
      simp only [Except.map, Except.ok.injEq] at hd
      rw [← hd, dGetOpt_dSet_ne _ _ _ _ h5]
  · simp at hd

theorem step_province_preserves (doc3 : Dict) (K : String)
    (h1 : K ≠ "province/state") (h2 : K ≠ "state") :
    dGetOpt (ElasticParse.step_province doc3) K = dGetOpt doc3 K := by
  unfold ElasticParse.step_province
  rw [dGetOpt_dSet_ne _ _ _ _ h1, dGetOpt_dDel_ne _ _ _ h2]

theorem step_page_preserves (doc5 : Dict) (K : String) (h4 : K ≠ "page") :
    dGetOpt (ElasticParse.step_page doc5) K = dGetOpt doc5 K := by
  unfold ElasticParse.step_page
  split
  · rw [dGetOpt_dDel_ne _ _ _ h4]
  · rfl

theorem entry_doc_tail_preserves (strpB strpY : String → Except PyErr Int)
    (doc3 : Dict) (K : String)
    (h1 : K ≠ "province/state") (h2 : K ≠ "state") (h3 : K ≠ "updated")
    (h4 : K ≠ "page") (h5 : K ≠ "access_time") :
    ∀ d', ElasticParse.entry_doc_tail strpB strpY doc3 = .ok d' →
      dGetOpt d' K = dGetOpt doc3 K := by
  intro d' hd
  simp only [ElasticParse.entry_doc_tail, bind, Except.bind] at hd
  cases hU : ElasticParse.step_updated strpB (ElasticParse.step_province doc3) with
  | error e => rw [hU] at hd; simp at hd
  | ok doc5 =>
    rw [hU] at hd
    rw [step_access_preserves strpY _ K h5 d' hd, step_page_preserves _ K h4,
      step_updated_preserves strpB _ K h3 doc5 hU,
      step_province_preserves _ K h1 h2]

theorem transform_gating (fips : Value → Value → Value) (nowIso : String)
    (rec : Dict) :
    (dHasKey (Pipe.transform_data_to_document fips nowIso "lat" "lon" rec)
        "geometry" = true ↔
      ((mg "county_lat" .toFloat rec).isNull = false ∧
        (mg "county_lon" .toFloat rec).isNull = false)) ∧
    (dHasKey (Pipe.transform_data_to_document fips nowIso "lat" "lon" rec)
        "fips" = true ↔
      ((mg "county_lat" .toFloat rec).isNull = false ∧
        (mg "county_lon" .toFloat rec).isNull = false)) ∧
    ((mg "county_lat" .toFloat rec).isNull = false →
      (mg "county_lon" .toFloat rec).isNull = false →
      dGetOpt (Pipe.transform_data_to_document fips nowIso "lat" "lon" rec)
          "geometry" =
        some (.obj [("coordinates",
                     .obj [("lat", mg "county_lat" .toFloat rec),
                           ("lon", mg "county_lon" .toFloat rec)]),
                    ("type", .str "Point")]) ∧
      dGetOpt (Pipe.transform_data_to_document fips nowIso "lat" "lon" rec)
          "fips" =
        some (fips (mg "county_lat" .toFloat rec)
          (mg "county_lon" .toFloat rec))) := by
  have hLat := transform_core_lat rec
  have hLon := transform_core_lon rec
  have hGeo := transform_core_geometry rec
  have hFips := transform_core_fips rec
  have hHKlat : dHasKey (Pipe.transform_core rec) "lat" = true := by
    rw [dHasKey_eq_isSome, hLat]; rfl
  have hHKlon : dHasKey (Pipe.transform_core rec) "lon" = true := by
    rw [dHasKey_eq_isSome, hLon]; rfl
  have hGlat : dGet (Pipe.transform_core rec) "lat" =
      mg "county_lat" .toFloat rec := by
    rw [dGet, hLat]; rfl
  have hGlon : dGet (Pipe.transform_core rec) "lon" =
      mg "county_lon" .toFloat rec := by
    rw [dGet, hLon]; rfl
  simp only [Pipe.transform_data_to_document, hHKlat, hHKlon, hGlat, hGlon]
  by_cases hl : (mg "county_lat" Cast.toFloat rec).isNull = false <;>
    by_cases ho : (mg "county_lon" Cast.toFloat rec).isNull = false <;>
    simp only [hl, ho, dHasKey_eq_isSome] <;>
    simp [dGetOpt_dSet_self, dGetOpt_dSet_ne, dGetOpt_dDel_ne, hGeo, hFips,
      hGlat, hGlon, hl, ho] <;>
    simp_all [dGet, dGetOpt_dSet_ne, hLat, hLon, Value.isNull]

theorem Value_isNull_null : Value.null.isNull = true := rfl

theorem geo_steps_gating (fips : Value → Value → Value) (doc0 : Dict)
    (hgeo : dGetOpt doc0 "geometry" = none)
    (hfips : dGetOpt doc0 "fips" = none) :
    dGetOpt (ElasticParse.geo_steps fips doc0) "geometry" =
      (if (dHasKey doc0 "lat" = true ∧ (dGet doc0 "lat").isNull = false) ∧
          (dHasKey doc0 "lon" = true ∧ (dGet doc0 "lon").isNull = false) then
        some (.obj [("coordinates", .arr [dGet doc0 "lon", dGet doc0 "lat"]),
                    ("type", .str "Point")])
      else none) ∧
    dGetOpt (ElasticParse.geo_steps fips doc0) "fips" =
      (if (dHasKey doc0 "lat" = true ∧ (dGet doc0 "lat").isNull = false) ∧
          (dHasKey doc0 "lon" = true ∧ (dGet doc0 "lon").isNull = false) then
        some (fips (dGet doc0 "lat") (dGet doc0 "lon"))
      else none) := by
  have hk2 : dHasKey (dDel doc0 "lat") "lon" = dHasKey doc0 "lon" := by
    rw [dHasKey_eq_isSome, dHasKey_eq_isSome, dGetOpt_dDel_ne _ _ _ (by decide)]
  have hg2 : dGet (dDel doc0 "lat") "lon" = dGet doc0 "lon" := by
    unfold dGet
    rw [dGetOpt_dDel_ne _ _ _ (by decide)]
  unfold ElasticParse.geo_steps
  by_cases hkl : dHasKey doc0 "lat" = true <;>
    by_cases hkn : dHasKey doc0 "lon" = true <;>
    by_cases hnl : (dGet doc0 "lat").isNull = true <;>
    by_cases hno : (dGet doc0 "lon").isNull = true <;>
    simp [hk2, hg2, hkl, hkn, hnl, hno, Value_isNull_null, dGetOpt_dSet_self,
      dGetOpt_dSet_ne, dGetOpt_dDel_ne, hgeo, hfips]

theorem entry_gating (strpB strpY : String → Except PyErr Int)
    (fips : Value → Value → Value) (entry : Dict)
    (hgeo : dGetOpt entry "geometry" = none)
    (hfips : dGetOpt entry "fips" = none) :
    ∀ d', ElasticParse.entry_doc_steps strpB strpY fips entry = .ok d' →
      (dHasKey d' "geometry" = true ↔
        ((dHasKey entry "lat" = true ∧ (dGet entry "lat").isNull = false) ∧
         (dHasKey entry "lon" = true ∧ (dGet entry "lon").isNull = false))) ∧
      (dHasKey d' "fips" = true ↔
        ((dHasKey entry "lat" = true ∧ (dGet entry "lat").isNull = false) ∧
         (dHasKey entry "lon" = true ∧ (dGet entry "lon").isNull = false))) ∧
      ((dHasKey entry "lat" = true ∧ (dGet entry "lat").isNull = false) →
       (dHasKey entry "lon" = true ∧ (dGet entry "lon").isNull = false) →
        dGetOpt d' "geometry" =
          some (.obj [("coordinates", .arr [dGet entry "lon", dGet entry "lat"]),
                      ("type", .str "Point")]) ∧
        dGetOpt d' "fips" =
          some (fips (dGet entry "lat") (dGet entry "lon"))) := by
  intro d' hok
  unfold ElasticParse.entry_doc_steps at hok
  have hpg := entry_doc_tail_preserves strpB strpY
    (ElasticParse.geo_steps fips entry) "geometry"
    (by decide) (by decide) (by decide) (by decide) (by decide) d' hok
  have hpf := entry_doc_tail_preserves strpB strpY
    (ElasticParse.geo_steps fips entry) "fips"
    (by decide) (by decide) (by decide) (by decide) (by decide) d' hok
  obtain ⟨hgg, hgf⟩ := geo_steps_gating fips entry hgeo hfips
  rw [hgg] at hpg
  rw [hgf] at hpf
  refine ⟨?_, ?_, fun h1 h2 => ?_⟩
  · rw [dHasKey_eq_isSome, hpg]
    split <;> simp_all
  · rw [dHasKey_eq_isSome, hpf]
    split <;> simp_all
  · rw [hpg, hpf]
    simp [h1, h2]

/-- C1 (amended): on both document-production paths, the Document carries the
`geometry` and `fips` keys iff both the latitude and the longitude field are
present and non-null on the source Record (for the pipe path, the latitude
and longitude source columns are `county_lat`/`county_lon`); but the two
paths produce differently shaped geometry values: `entry_to_act` attaches
`{type: 'Point', coordinates: [lon, lat]}` (array, longitude first), while
`_transform_data_to_document` attaches
`{coordinates: {lat: ..., lon: ...}, type: 'Point'}` (a mapping, not an
array).  The entry path statement assumes the source Record does not itself
carry `geometry`/`fips` keys. -/
theorem C1_geometry_gating_amended :
    (∀ (fips : Value → Value → Value) (nowIso : String) (rec : Dict),
      (dHasKey (Pipe.transform_data_to_document fips nowIso "lat" "lon" rec)
          "geometry" = true ↔
        ((dHasKey rec "county_lat" = true ∧
            (dGet rec "county_lat").isNull = false) ∧
         (dHasKey rec "county_lon" = true ∧
            (dGet rec "county_lon").isNull = false))) ∧
      (dHasKey (Pipe.transform_data_to_document fips nowIso "lat" "lon" rec)
          "fips" = true ↔
        ((dHasKey rec "county_lat" = true ∧
            (dGet rec "county_lat").isNull = false) ∧
         (dHasKey rec "county_lon" = true ∧
            (dGet rec "county_lon").isNull = false))) ∧
      ((dHasKey rec "county_lat" = true ∧
          (dGet rec "county_lat").isNull = false) →
       (dHasKey rec "county_lon" = true ∧
          (dGet rec "county_lon").isNull = false) →
        dGetOpt (Pipe.transform_data_to_document fips nowIso "lat" "lon" rec)
            "geometry" =
          some (.obj [("coordinates",
                       .obj [("lat", mg "county_lat" .toFloat rec),
                             ("lon", mg "county_lon" .toFloat rec)]),
                      ("type", .str "Point")]) ∧
        dGetOpt (Pipe.transform_data_to_document fips nowIso "lat" "lon" rec)
            "fips" =
          some (fips (mg "county_lat" .toFloat rec)
            (mg "county_lon" .toFloat rec)))) ∧
    (∀ (strpB strpY : String → Except PyErr Int)
       (fips : Value → Value → Value) (entry : Dict),
      dGetOpt entry "geometry" = none → dGetOpt entry "fips" = none →
      ∀ d', ElasticParse.entry_doc_steps strpB strpY fips entry = .ok d' →
        (dHasKey d' "geometry" = true ↔
          ((dHasKey entry "lat" = true ∧ (dGet entry "lat").isNull = false) ∧
           (dHasKey entry "lon" = true ∧ (dGet entry "lon").isNull = false))) ∧
        (dHasKey d' "fips" = true ↔
          ((dHasKey entry "lat" = true ∧ (dGet entry "lat").isNull = false) ∧
           (dHasKey entry "lon" = true ∧ (dGet entry "lon").isNull = false))) ∧
        ((dHasKey entry "lat" = true ∧ (dGet entry "lat").isNull = false) →
         (dHasKey entry "lon" = true ∧ (dGet entry "lon").isNull = false) →
          dGetOpt d' "geometry" =
            some (.obj [("coordinates",
                         .arr [dGet entry "lon", dGet entry "lat"]),
                        ("type", .str "Point")]) ∧
          dGetOpt d' "fips" =
            some (fips (dGet entry "lat") (dGet entry "lon")))) := by
  constructor
  · intro fips nowIso rec
    obtain ⟨hg, hf, hv⟩ := transform_gating fips nowIso rec
    refine ⟨?_, ?_, fun h1 h2 => ?_⟩
    · rw [hg, mg_isNull_iff, mg_isNull_iff]
    · rw [hf, mg_isNull_iff, mg_isNull_iff]
    · exact hv ((mg_isNull_iff _ _ _).mpr h1) ((mg_isNull_iff _ _ _).mpr h2)
  · exact fun strpB strpY fips entry hg hf =>
      entry_gating strpB strpY fips entry hg hf

/-- Counterexample to C1 as stated: on the pipe path, a Record with non-null
`county_lat`/`county_lon` gets a `geometry` whose `coordinates` is the
mapping `{lat: 40, lon: -75}`, not the array `[-75, 40]` the claim
requires. -/
theorem C1_geometry_gating_counterexample :
    ∃ g : Dict,
      dGetOpt
        (Pipe.transform_data_to_document (fun _ _ => .obj [])
          "2020-04-02T00:00:00" "lat" "lon"
          [("county_lat", .num 40), ("county_lon", .num (-75))])
        "geometry" = some (.obj g) ∧
      dGetOpt g "coordinates" =
        some (.obj [("lat", .num 40), ("lon", .num (-75))]) ∧
      dGetOpt g "coordinates" ≠ some (.arr [.num (-75), .num 40]) := by
  refine ⟨[("coordinates", .obj [("lat", .num 40), ("lon", .num (-75))]),
           ("type", .str "Point")], by rfl, by rfl, by simp [dGetOpt_cons]⟩

/-- Witness for C1 (amended) at concrete inputs, discharging the hypotheses
of both conjuncts. -/
theorem C1_geometry_gating_amended_witness :
    ((dHasKey [("county_lat", Value.num 40), ("county_lon", Value.num (-75))]
        "county_lat" = true ∧
      (dGet [("county_lat", Value.num 40), ("county_lon", Value.num (-75))]
        "county_lat").isNull = false) ∧
     (dHasKey [("county_lat", Value.num 40), ("county_lon", Value.num (-75))]
        "county_lon" = true ∧
      (dGet [("county_lat", Value.num 40), ("county_lon", Value.num (-75))]
        "county_lon").isNull = false) ∧
     dGetOpt
        (Pipe.transform_data_to_document (fun _ _ => .obj []) "t" "lat" "lon"
          [("county_lat", Value.num 40), ("county_lon", Value.num (-75))])
        "geometry" =
       some (.obj [("coordinates",
                    .obj [("lat", mg "county_lat" .toFloat
                             [("county_lat", Value.num 40),
                              ("county_lon", Value.num (-75))]),
                          ("lon", mg "county_lon" .toFloat
                             [("county_lat", Value.num 40),
                              ("county_lon", Value.num (-75))])]),
                   ("type", .str "Point")]) ∧
     dGetOpt
        (Pipe.transform_data_to_document (fun _ _ => .obj []) "t" "lat" "lon"
          [("county_lat", Value.num 40), ("county_lon", Value.num (-75))])
        "fips" = some (Value.obj [])) ∧
    (dGetOpt [("access_time", Value.str "t")] "geometry" = none ∧
     dGetOpt [("access_time", Value.str "t")] "fips" = none ∧
     ElasticParse.entry_doc_steps (fun _ => .error .valueError)
        (fun _ => .ok 1585742400) (fun _ _ => .obj [])
        [("access_time", Value.str "t")] =
       .ok [("access_time", Value.num 1585742400), ("province/state", .null)] ∧
     (dHasKey
        [("access_time", Value.num 1585742400), ("province/state", .null)]
        "geometry" = true ↔
       ((dHasKey [("access_time", Value.str "t")] "lat" = true ∧
          (dGet [("access_time", Value.str "t")] "lat").isNull = false) ∧
        (dHasKey [("access_time", Value.str "t")] "lon" = true ∧
          (dGet [("access_time", Value.str "t")] "lon").isNull = false)))) := by
  have hpipe := (C1_geometry_gating_amended.1 (fun _ _ => .obj []) "t"
    [("county_lat", Value.num 40), ("county_lon", Value.num (-75))])
  have hval := hpipe.2.2 ⟨by rfl, by rfl⟩ ⟨by rfl, by rfl⟩
  have hok : ElasticParse.entry_doc_steps (fun _ => .error .valueError)
      (fun _ => .ok 1585742400) (fun _ _ => .obj [])
      [("access_time", Value.str "t")] =
      .ok [("access_time", Value.num 1585742400), ("province/state", .null)] := by
    rfl
  have hentry := (C1_geometry_gating_amended.2 (fun _ => .error .valueError)
    (fun _ => .ok 1585742400) (fun _ _ => .obj [])
    [("access_time", Value.str "t")] (by rfl) (by rfl) _ hok)
  exact ⟨⟨⟨by rfl, by rfl⟩, ⟨by rfl, by rfl⟩, hval.1, hval.2⟩,
    ⟨by rfl, by rfl, hok, hentry.1⟩⟩

/-! ## Helper lemmas about the object heap -/

theorem hGet_append_lt (h : ElasticParse.Heap) (x : Dict) (a : Nat)
    (ha : a < h.length) : ElasticParse.hGet (h ++ [x]) a = ElasticParse.hGet h a := by
  unfold ElasticParse.hGet
  rw [List.getElem?_append]
  simp [ha]

theorem hGet_hSet_ne (h : ElasticParse.Heap) (a b : Nat) (d : Dict)
    (hab : a ≠ b) : ElasticParse.hGet (ElasticParse.hSet h a d) b =
      ElasticParse.hGet h b := by
  unfold ElasticParse.hGet ElasticParse.hSet
  rw [List.getElem?_set_ne hab]

/-- C9: `entry_to_act` leaves the input Record unchanged: `doc = entry.copy()`
allocates a fresh object, every mutation targets the fresh address, and on
success the action's `_id` is the identity hash of the original, unmodified
entry.  The frame property holds on every path, including the paths on which
an exception is raised. -/
theorem C9_entry_to_act_frame :
    ∀ (strpB strpY : String → Except PyErr Int) (fips : Value → Value → Value)
      (index_name body_name : String) (h : ElasticParse.Heap) (e : Nat),
      e < h.length →
      ElasticParse.hGet
          (ElasticParse.entry_to_act strpB strpY fips index_name body_name
            h e).1 e =
        ElasticParse.hGet h e ∧
      (body_name ≠ "_id" →
        ∀ act,
          (ElasticParse.entry_to_act strpB strpY fips index_name body_name
            h e).2 = .ok act →
          ∃ digest, ElasticParse.gen_id (ElasticParse.hGet h e) = .ok digest ∧
            dGetOpt act "_id" = some (.str digest)) := by
  intro strpB strpY fips index_name body_name h e he
  have hne : h.length ≠ e := fun hh => absurd hh.symm (Nat.ne_of_lt he)
  have happ : ElasticParse.hGet (h ++ [ElasticParse.hGet h e]) e =
      ElasticParse.hGet h e := hGet_append_lt h _ e he
  have hset : ∀ d : Dict,
      ElasticParse.hGet
        (ElasticParse.hSet (h ++ [ElasticParse.hGet h e]) h.length d) e =
      ElasticParse.hGet h e := fun d => by
    rw [hGet_hSet_ne _ _ _ _ hne, happ]
  unfold ElasticParse.entry_to_act
  cases hsteps : ElasticParse.entry_doc_steps strpB strpY fips
      (ElasticParse.hGet (h ++ [ElasticParse.hGet h e]) h.length) with
  | error err => simp [hsteps, happ]
  | ok doc =>
    simp only [hsteps]
    rw [hset doc] at *
    cases hgen : ElasticParse.gen_id (ElasticParse.hGet h e) with
    | error err =>
      simp [hgen, hset]
    | ok digest =>
      simp only [hgen]
      refine ⟨hset doc, fun hbn act hact => ⟨digest, rfl, ?_⟩⟩
      simp only [Except.ok.injEq] at hact
      rw [← hact]
      rw [dGetOpt_dSet_ne _ _ _ _ (Ne.symm hbn), dGetOpt_dSet_self]

/-- Witness for C9 at a concrete heap: one entry object carrying `state` and
`access_time`, transformed with concrete parse/lookup functions. -/
theorem C9_entry_to_act_frame_witness :
    (0 < [[("state", Value.str "PA"), ("access_time", Value.str "t")]].length) ∧
    ElasticParse.hGet
        (ElasticParse.entry_to_act (fun _ => .error .valueError)
          (fun _ => .ok 1585742400) (fun _ _ => .obj []) "covid-ornl" "_source"
          [[("state", Value.str "PA"), ("access_time", Value.str "t")]] 0).1 0 =
      ElasticParse.hGet
        [[("state", Value.str "PA"), ("access_time", Value.str "t")]] 0 ∧
    (("_source" : String) ≠ "_id" →
      ∀ act,
        (ElasticParse.entry_to_act (fun _ => .error .valueError)
          (fun _ => .ok 1585742400) (fun _ _ => .obj []) "covid-ornl" "_source"
          [[("state", Value.str "PA"), ("access_time", Value.str "t")]] 0).2 =
          .ok act →
        ∃ digest,
          ElasticParse.gen_id
            (ElasticParse.hGet
              [[("state", Value.str "PA"), ("access_time", Value.str "t")]] 0) =
            .ok digest ∧
          dGetOpt act "_id" = some (.str digest)) :=
  ⟨by decide,
   (C9_entry_to_act_frame (fun _ => .error .valueError)
     (fun _ => .ok 1585742400) (fun _ _ => .obj []) "covid-ornl" "_source"
     [[("state", Value.str "PA"), ("access_time", Value.str "t")]] 0
     (by decide)).1,
   (C9_entry_to_act_frame (fun _ => .error .valueError)
     (fun _ => .ok 1585742400) (fun _ _ => .obj []) "covid-ornl" "_source"
     [[("state", Value.str "PA"), ("access_time", Value.str "t")]] 0
     (by decide)).2⟩

/-! ## Helper lemmas characterising the `gen_data_source` interpreter -/

theorem for_limited_none {α : Type} (ck : List α) (c n : Nat) (hc : c < n) :
    (Pipe.for_limited ck c (n : Int) none).1 =
      ck.take (min ck.length (n - c)) ∧
    (Pipe.for_limited ck c (n : Int) none).2.1 =
      c + min ck.length (n - c) ∧
    (Pipe.for_limited ck c (n : Int) none).2.2.1 = none ∧
    (Pipe.for_limited ck c (n : Int) none).2.2.2 ≠ Pipe.ForExit.abandonedF := by
  induction ck generalizing c with
  | nil => simp [Pipe.for_limited]
  | cons x xs ih =>
    simp only [Pipe.for_limited, Option.map_none']
    rw [if_neg (show ¬(none : Option Nat) = some 0 by simp)]
    by_cases hstop : n ≤ c + 1
    · rw [if_pos (show (n : Int) ≤ ((c + 1 : Nat) : Int) by exact_mod_cast hstop)]
      have hmin : min (x :: xs).length (n - c) = 1 := by
        simp only [List.length_cons]
        omega
      rw [hmin]
      exact ⟨rfl, rfl, rfl, by simp⟩
    · rw [if_neg (show ¬((n : Int) ≤ ((c + 1 : Nat) : Int)) by
        exact_mod_cast hstop)]
      obtain ⟨ih1, ih2, ih3, ih4⟩ := ih (c + 1) (by omega)
      have hmin : min (x :: xs).length (n - c) =
          min xs.length (n - (c + 1)) + 1 := by
        simp only [List.length_cons]
        omega
      refine ⟨?_, ?_, ih3, ih4⟩
      · rw [hmin, List.take_succ_cons]
        show x :: (Pipe.for_limited xs (c + 1) (n : Int) none).1 = _
        rw [ih1]
      · show (Pipe.for_limited xs (c + 1) (n : Int) none).2.1 = _
        rw [hmin, ih2]
        omega

theorem for_unlimited_none {α : Type} (ck : List α) (c : Nat) :
    Pipe.for_unlimited ck c none =
      (ck, c + ck.length, none, Pipe.ForExit.ranOff) := by
  induction ck generalizing c with
  | nil => simp [Pipe.for_unlimited]
  | cons x xs ih =>
    simp [Pipe.for_unlimited, ih (c + 1)]
    omega

theorem while_limited_none {α : Type} (chunk n : Nat) (hchunk : 0 < chunk) :
    ∀ (rows : List α) (c fi : Nat),
      Pipe.while_limited rows chunk (n : Int) c none none fi =
        ⟨rows.take (min rows.length (n - c)),
         c + min rows.length (n - c), true, true, .completed⟩ := by
  have main : ∀ (N : Nat) (rows : List α), rows.length ≤ N → ∀ c fi : Nat,
      Pipe.while_limited rows chunk (n : Int) c none none fi =
        ⟨rows.take (min rows.length (n - c)),
         c + min rows.length (n - c), true, true, .completed⟩ := by
    intro N
    induction N with
    | zero =>
      intro rows hlen c fi
      have hrows : rows = [] := List.eq_nil_of_length_eq_zero (by omega)
      subst hrows
      rw [Pipe.while_limited]
      by_cases hnc : (n : Int) ≤ (c : Int)
      · rw [if_pos hnc]
        simp
      · rw [if_neg hnc]
        rw [if_neg (show ¬(none : Option Nat) = some fi by simp)]
        simp [Pipe.for_limited]
    | succ N ih =>
      intro rows hlen c fi
      rw [Pipe.while_limited]
      by_cases hnc : n ≤ c
      · have hnc2 : (n : Int) ≤ (c : Int) := by exact_mod_cast hnc
        have hmin : min rows.length (n - c) = 0 := by omega
        rw [if_pos hnc2]
        simp [hmin]
      · have hnc2 : ¬((n : Int) ≤ (c : Int)) := by exact_mod_cast hnc
        have hc : c < n := by omega
        obtain ⟨f1, f2, f3, f4⟩ := for_limited_none (rows.take chunk) c n hc
        have hckl : (rows.take chunk).length = min chunk rows.length :=
          List.length_take _ _
        rw [if_neg hnc2]
        rw [if_neg (show ¬(none : Option Nat) = some fi by simp)]
        rw [if_neg f4]
        by_cases hck : (rows.take chunk).isEmpty
        · have hrows : rows = [] := by
            rcases rows with _ | ⟨y, ys⟩
            · rfl
            · exfalso
              rcases Nat.exists_eq_add_of_lt hchunk with ⟨m, hm⟩
              rw [hm] at hck
              simp [List.take_succ_cons] at hck
          subst hrows
          rw [dif_pos (Or.inl hck)]
          rw [Pipe.GenRun.mk.injEq]
          simp only [List.take_nil, List.length_nil, Nat.zero_min] at f1 f2 ⊢
          exact ⟨by rw [f1], by rw [f2], by trivial, by trivial, by trivial⟩
        · by_cases hlim : n ≤ c + min (rows.take chunk).length (n - c)
          · have hcond : (rows.take chunk).isEmpty = true ∨
                (n : Int) ≤ (((Pipe.for_limited (rows.take chunk) c (n : Int)
                  none).2.1 : Nat) : Int) := by
              right
              rw [f2]
              exact_mod_cast hlim
            rw [dif_pos hcond]
            have htle : min (rows.take chunk).length (n - c) = n - c := by
              omega
            have hrlen : n - c ≤ rows.length := by
              rw [hckl] at htle
              omega
            have hmin2 : min rows.length (n - c) = n - c := by omega
            have htake : (rows.take chunk).take (n - c) = rows.take (n - c) := by
              rw [List.take_take]
              congr 1
              rw [hckl] at htle
              omega
            rw [Pipe.GenRun.mk.injEq]
            refine ⟨?_, ?_, by trivial, by trivial, by trivial⟩
            · rw [f1, htle, htake, hmin2]
            · rw [f2, htle, hmin2]
          · have hcond : ¬((rows.take chunk).isEmpty = true ∨
                (n : Int) ≤ (((Pipe.for_limited (rows.take chunk) c (n : Int)
                  none).2.1 : Nat) : Int)) := by
              push_neg
              refine ⟨by simpa using hck, ?_⟩
              rw [f2]
              exact_mod_cast Nat.lt_of_not_le hlim
            rw [dif_neg hcond]
            have htfull : min (rows.take chunk).length (n - c) =
                (rows.take chunk).length := by
              omega
            have hdrop : (rows.drop chunk).length ≤ N := by
              have hrows : rows ≠ [] := by
                intro hnil
                rw [hnil] at hck
                simp at hck
              have hpos : 0 < rows.length := List.length_pos.mpr hrows
              simp only [List.length_drop]
              omega
            rw [f2, f3, ih (rows.drop chunk) hdrop
              (c + min (rows.take chunk).length (n - c)) (fi + 1)]
            rw [Pipe.GenRun.mk.injEq]
            have hyield : (Pipe.for_limited (rows.take chunk) c
                (n : Int) none).1 = rows.take chunk := by
              rw [f1, htfull, List.take_length]
            rw [hyield]
            rw [hckl] at htfull
            simp only [List.length_drop, hckl]
            refine ⟨?_, by omega, by trivial, by trivial, by trivial⟩
            rw [← List.take_add, List.take_eq_take]
            omega
  exact fun rows c fi => main rows.length rows le_rfl c fi

theorem while_unlimited_none {α : Type} (chunk : Nat) (hchunk : 0 < chunk) :
    ∀ (rows : List α) (c fi : Nat),
      Pipe.while_unlimited rows chunk c none none fi =
        ⟨rows, c + rows.length, true, true, .completed⟩ := by
  have main : ∀ (N : Nat) (rows : List α), rows.length ≤ N → ∀ c fi : Nat,
      Pipe.while_unlimited rows chunk c none none fi =
        ⟨rows, c + rows.length, true, true, .completed⟩ := by
    intro N
    induction N with
    | zero =>
      intro rows hlen c fi
      have hrows : rows = [] := List.eq_nil_of_length_eq_zero (by omega)
      subst hrows
      rw [Pipe.while_unlimited]
      rw [if_neg (show ¬(none : Option Nat) = some fi by simp)]
      simp only []
      simp [for_unlimited_none]
    | succ N ih =>
      intro rows hlen c fi
      rw [Pipe.while_unlimited]
      rw [if_neg (show ¬(none : Option Nat) = some fi by simp)]
      simp only []
      rw [for_unlimited_none]
      rw [if_neg (by simp)]
      by_cases hck : (rows.take chunk).isEmpty
      · have hrows : rows = [] := by
          rcases rows with _ | ⟨y, ys⟩
          · rfl
          · exfalso
            rcases Nat.exists_eq_add_of_lt hchunk with ⟨m, hm⟩
            rw [hm] at hck
            simp [List.take_succ_cons] at hck
        subst hrows
        rw [dif_pos (by simpa using hck)]
        simp
      · rw [dif_neg (by simpa using hck)]
        have hrows : rows ≠ [] := by
          intro hnil
          rw [hnil] at hck
          simp at hck
        have hpos : 0 < rows.length := List.length_pos.mpr hrows
        have hdrop : (rows.drop chunk).length ≤ N := by
          simp only [List.length_drop]
          omega
        rw [ih (rows.drop chunk) hdrop _ (fi + 1)]
        rw [Pipe.GenRun.mk.injEq]
        refine ⟨List.take_append_drop _ _, ?_, by trivial, by trivial, by trivial⟩
        simp only [List.length_take, List.length_drop]
        omega
  exact fun rows c fi => main rows.length rows le_rfl c fi

/-- C5: with a non-negative configured limit `n` and a source of `m` rows,
`gen_data_source` yields exactly `min n m` records (the first `min n m` of
the source, stopping mid-batch when the limit falls inside a fetched chunk),
leaves `transfer_count = min n m`, and closes the cursor; with the unbounded
setting `limit = -1` it yields exactly the `m` source rows and closes the
cursor. -/
theorem C5_limit_enforcement :
    ∀ {α : Type} (rows : List α) (chunk n : Nat), 0 < chunk →
      ((Pipe.gen_data_source rows chunk (n : Int) false none none).yielded =
          rows.take (min n rows.length) ∧
        (Pipe.gen_data_source rows chunk (n : Int) false none none).count =
          min n rows.length ∧
        (Pipe.gen_data_source rows chunk (n : Int) false none
          none).closed = true) ∧
      ((Pipe.gen_data_source rows chunk (-1) false none none).yielded = rows ∧
        (Pipe.gen_data_source rows chunk (-1) false none none).count =
          rows.length ∧
        (Pipe.gen_data_source rows chunk (-1) false none
          none).closed = true) := by
  intro α rows chunk n hchunk
  constructor
  · have hne : ¬((n : Int) = -1) := by omega
    rw [Pipe.gen_data_source]
    rw [if_neg (by simp), if_neg (by simp), if_neg hne]
    rw [while_limited_none chunk n hchunk rows 0 1]
    simp [Nat.min_comm]
  · rw [Pipe.gen_data_source]
    rw [if_neg (by simp), if_neg (by simp), if_pos rfl]
    rw [while_unlimited_none chunk hchunk rows 0 1]
    simp

/-- Witness for C5 at a concrete source of 5 records, chunk size 2 and
limit 3. -/
theorem C5_limit_enforcement_witness :
    (0 < 2) ∧
    ((Pipe.gen_data_source (List.range 5) 2 ((3 : Nat) : Int) false none
        none).yielded = (List.range 5).take (min 3 (List.range 5).length) ∧
      (Pipe.gen_data_source (List.range 5) 2 ((3 : Nat) : Int) false none
        none).count = min 3 (List.range 5).length ∧
      (Pipe.gen_data_source (List.range 5) 2 ((3 : Nat) : Int) false none
        none).closed = true) ∧
    ((Pipe.gen_data_source (List.range 5) 2 (-1) false none none).yielded =
        List.range 5 ∧
      (Pipe.gen_data_source (List.range 5) 2 (-1) false none none).count =
        (List.range 5).length ∧
      (Pipe.gen_data_source (List.range 5) 2 (-1) false none
        none).closed = true) :=
  ⟨by decide, C5_limit_enforcement (List.range 5) 2 3 (by decide)⟩

theorem for_limited_budget {α : Type} (ck : List α) (c n k : Nat)
    (hc : c < n) (hk : 1 ≤ k) :
    (k ≤ min ck.length (n - c) →
      Pipe.for_limited ck c (n : Int) (some k) =
        (ck.take k, c + (k - 1), some 0, .abandonedF)) ∧
    (min ck.length (n - c) < k →
      (Pipe.for_limited ck c (n : Int) (some k)).1 =
        ck.take (min ck.length (n - c)) ∧
      (Pipe.for_limited ck c (n : Int) (some k)).2.1 =
        c + min ck.length (n - c) ∧
      (Pipe.for_limited ck c (n : Int) (some k)).2.2.1 =
        some (k - min ck.length (n - c)) ∧
      (Pipe.for_limited ck c (n : Int) (some k)).2.2.2 ≠
        Pipe.ForExit.abandonedF) := by
  induction ck generalizing c k with
  | nil =>
    constructor
    · intro hle
      simp only [List.length_nil, Nat.zero_min] at hle
      omega
    · intro _
      simp [Pipe.for_limited]
  | cons x xs ih =>
    simp only [Pipe.for_limited, Option.map_some']
    by_cases hk1 : k = 1
    · subst hk1
      rw [if_pos (by simp)]
      constructor
      · intro _
        simp
      · intro hgt
        exfalso
        simp only [List.length_cons] at hgt
        omega
    · rw [if_neg (by simp; omega)]
      by_cases hstop : n ≤ c + 1
      · rw [if_pos (show (n : Int) ≤ ((c + 1 : Nat) : Int) by
          exact_mod_cast hstop)]
        have hmin : min (x :: xs).length (n - c) = 1 := by
          simp only [List.length_cons]
          omega
        constructor
        · intro hle
          rw [hmin] at hle
          omega
        · intro _
          rw [hmin]
          exact ⟨rfl, rfl, rfl, by simp⟩
      · rw [if_neg (show ¬((n : Int) ≤ ((c + 1 : Nat) : Int)) by
          exact_mod_cast hstop)]
        obtain ⟨ihA, ihB⟩ := ih (c + 1) (k - 1) (by omega) (by omega)
        have hmin : min (x :: xs).length (n - c) =
            min xs.length (n - (c + 1)) + 1 := by
          simp only [List.length_cons]
          omega
        constructor
        · intro hle
          have hle2 : k - 1 ≤ min xs.length (n - (c + 1)) := by
            rw [hmin] at hle
            omega
          rw [ihA hle2]
          have htk : (x :: xs).take k = x :: xs.take (k - 1) := by
            cases k with
            | zero => omega
            | succ m => simp [List.take_succ_cons]
          have hcount : c + 1 + (k - 1 - 1) = c + (k - 1) := by omega
          rw [htk, hcount]
        · intro hgt
          have hgt2 : min xs.length (n - (c + 1)) < k - 1 := by
            rw [hmin] at hgt
            omega
          obtain ⟨g1, g2, g3, g4⟩ := ihB hgt2
          refine ⟨?_, ?_, ?_, g4⟩
          · rw [hmin, List.take_succ_cons]
            show x :: (Pipe.for_limited xs (c + 1) (n : Int)
              (some (k - 1))).1 = _
            rw [g1]
          · show (Pipe.for_limited xs (c + 1) (n : Int) (some (k - 1))).2.1 = _
            rw [g2, hmin]
            omega
          · show (Pipe.for_limited xs (c + 1) (n : Int)
              (some (k - 1))).2.2.1 = _
            rw [g3, hmin]
            congr 1
            omega

theorem while_limited_budget {α : Type} (chunk n : Nat) (hchunk : 0 < chunk) :
    ∀ (rows : List α) (c fi k : Nat), 1 ≤ k →
      (k ≤ min rows.length (n - c) →
        Pipe.while_limited rows chunk (n : Int) c (some k) none fi =
          ⟨rows.take k, c + (k - 1), true, false, .abandoned⟩) ∧
      (min rows.length (n - c) < k →
        Pipe.while_limited rows chunk (n : Int) c (some k) none fi =
          ⟨rows.take (min rows.length (n - c)),
           c + min rows.length (n - c), true, true, .completed⟩) := by
  have main : ∀ (N : Nat) (rows : List α), rows.length ≤ N →
      ∀ c fi k : Nat, 1 ≤ k →
      (k ≤ min rows.length (n - c) →
        Pipe.while_limited rows chunk (n : Int) c (some k) none fi =
          ⟨rows.take k, c + (k - 1), true, false, .abandoned⟩) ∧
      (min rows.length (n - c) < k →
        Pipe.while_limited rows chunk (n : Int) c (some k) none fi =
          ⟨rows.take (min rows.length (n - c)),
           c + min rows.length (n - c), true, true, .completed⟩) := by
    intro N
    induction N with
    | zero =>
      intro rows hlen c fi k hk
      have hrows : rows = [] := List.eq_nil_of_length_eq_zero (by omega)
      subst hrows
      constructor
      · intro hle
        simp only [List.length_nil, Nat.zero_min] at hle
        omega
      · intro _
        rw [Pipe.while_limited]
        by_cases hnc : (n : Int) ≤ (c : Int)
        · rw [if_pos hnc]
          simp
        · rw [if_neg hnc]
          rw [if_neg (show ¬(none : Option Nat) = some fi by simp)]
          simp [Pipe.for_limited]
    | succ N ih =>
      intro rows hlen c fi k hk
      by_cases hnc : n ≤ c
      · have hnc2 : (n : Int) ≤ (c : Int) := by exact_mod_cast hnc
        have hT : min rows.length (n - c) = 0 := by omega
        constructor
        · intro hle
          omega
        · intro _
          rw [Pipe.while_limited, if_pos hnc2]
          simp [hT]
      · have hnc2 : ¬((n : Int) ≤ (c : Int)) := by exact_mod_cast hnc
        have hc : c < n := by omega
        obtain ⟨fA, fB⟩ := for_limited_budget (rows.take chunk) c n k hc hk
        have hckl : (rows.take chunk).length = min chunk rows.length :=
          List.length_take _ _
        by_cases hinchunk : k ≤ min (rows.take chunk).length (n - c)
        · -- the consumer abandons within this chunk
          have hfl := fA hinchunk
          have hkT : k ≤ min rows.length (n - c) := by
            rw [hckl] at hinchunk
            omega
          have htake : (rows.take chunk).take k = rows.take k := by
            rw [List.take_take]
            congr 1
            rw [hckl] at hinchunk
            omega
          constructor
          · intro _
            rw [Pipe.while_limited, if_neg hnc2]
            rw [if_neg (show ¬(none : Option Nat) = some fi by simp)]
            simp only []
            rw [hfl]
            simp [htake]
          · intro hgt
            omega
        · -- the budget survives this chunk
          push_neg at hinchunk
          obtain ⟨g1, g2, g3, g4⟩ := fB hinchunk
          rw [Pipe.while_limited, if_neg hnc2]
          rw [if_neg (show ¬(none : Option Nat) = some fi by simp)]
          simp only []
          rw [if_neg g4]
          by_cases hck : (rows.take chunk).isEmpty
          · have hrows : rows = [] := by
              rcases rows with _ | ⟨y, ys⟩
              · rfl
              · exfalso
                rcases Nat.exists_eq_add_of_lt hchunk with ⟨m, hm⟩
                rw [hm] at hck
                simp [List.take_succ_cons] at hck
            subst hrows
            rw [dif_pos (Or.inl hck)]
            constructor
            · intro hle
              simp only [List.length_nil, Nat.zero_min] at hle
              omega
            · intro _
              rw [Pipe.GenRun.mk.injEq]
              simp only [List.take_nil, List.length_nil, Nat.zero_min] at g1 g2 ⊢
              exact ⟨by rw [g1], by rw [g2], by trivial, by trivial, by trivial⟩
          · by_cases hlim : n ≤ c + min (rows.take chunk).length (n - c)
            · have hcond : (rows.take chunk).isEmpty = true ∨
                  (n : Int) ≤ (((Pipe.for_limited (rows.take chunk) c (n : Int)
                    (some k)).2.1 : Nat) : Int) := by
                right
                rw [g2]
                exact_mod_cast hlim
              rw [dif_pos hcond]
              have htle : min (rows.take chunk).length (n - c) = n - c := by
                omega
              have hrlen : n - c ≤ rows.length := by
                rw [hckl] at htle
                omega
              have hT : min rows.length (n - c) = n - c := by omega
              constructor
              · intro hle
                rw [htle] at hinchunk
                omega
              · intro _
                have htake : (rows.take chunk).take (n - c) =
                    rows.take (n - c) := by
                  rw [List.take_take]
                  congr 1
                  rw [hckl] at htle
                  omega
                rw [Pipe.GenRun.mk.injEq]
                refine ⟨?_, ?_, by trivial, by trivial, by trivial⟩
                · rw [g1, htle, htake, hT]
                · rw [g2, htle, hT]
            · have hcond : ¬((rows.take chunk).isEmpty = true ∨
                  (n : Int) ≤ (((Pipe.for_limited (rows.take chunk) c (n : Int)
                    (some k)).2.1 : Nat) : Int)) := by
                push_neg
                refine ⟨by simpa using hck, ?_⟩
                rw [g2]
                exact_mod_cast Nat.lt_of_not_le hlim
              rw [dif_neg hcond]
              have htfull : min (rows.take chunk).length (n - c) =
                  (rows.take chunk).length := by
                omega
              have hrows2 : rows ≠ [] := by
                intro hnil
                rw [hnil] at hck
                simp at hck
              have hpos : 0 < rows.length := List.length_pos.mpr hrows2
              have hdrop : (rows.drop chunk).length ≤ N := by
                simp only [List.length_drop]
                omega
              have hkrest : 1 ≤ k - min (rows.take chunk).length (n - c) := by
                omega
              obtain ⟨wA, wB⟩ := ih (rows.drop chunk) hdrop
                (c + min (rows.take chunk).length (n - c)) (fi + 1)
                (k - min (rows.take chunk).length (n - c)) hkrest
              have hyield : (Pipe.for_limited (rows.take chunk) c
                  (n : Int) (some k)).1 = rows.take chunk := by
                rw [g1, htfull, List.take_length]
              have hTsum : min (rows.drop chunk).length
                  (n - (c + min (rows.take chunk).length (n - c))) =
                  min rows.length (n - c) - (rows.take chunk).length := by
                simp only [List.length_drop]
                rw [hckl] at htfull ⊢
                omega
              constructor
              · intro hle
                have hle2 : k - min (rows.take chunk).length (n - c) ≤
                    min (rows.drop chunk).length
                      (n - (c + min (rows.take chunk).length (n - c))) := by
                  rw [hTsum, htfull]
                  rw [hckl] at htfull ⊢
                  omega
                rw [g2, g3, wA hle2]
                rw [Pipe.GenRun.mk.injEq]
                constructor
                · rw [hyield]
                  rw [← List.take_add, List.take_eq_take]
                  rw [hckl] at htfull hinchunk ⊢
                  omega
                · refine ⟨?_, by trivial, by trivial, by trivial⟩
                  simp only []
                  rw [hckl] at htfull hinchunk ⊢
                  omega
              · intro hgt
                have hgt2 : min (rows.drop chunk).length
                    (n - (c + min (rows.take chunk).length (n - c))) <
                    k - min (rows.take chunk).length (n - c) := by
                  rw [hTsum, htfull]
                  rw [hckl] at htfull ⊢
                  omega
                rw [g2, g3, wB hgt2]
                rw [Pipe.GenRun.mk.injEq]
                constructor
                · rw [hyield, hTsum]
                  rw [← List.take_add, List.take_eq_take]
                  rw [hckl] at htfull hinchunk ⊢
                  omega
                · refine ⟨?_, by trivial, by trivial, by trivial⟩
                  simp only []
                  rw [hckl] at htfull hinchunk ⊢
                  omega
  exact fun rows c fi k hk => main rows.length rows le_rfl c fi k hk

theorem gen_budget_run {α : Type} (rows : List α) (chunk n k : Nat)
    (hchunk : 0 < chunk) :
    (1 ≤ k → k ≤ min rows.length n →
      Pipe.gen_data_source rows chunk (n : Int) false none (some k) =
        ⟨rows.take k, k - 1, true, false, .abandoned⟩) ∧
    (min rows.length n < k →
      Pipe.gen_data_source rows chunk (n : Int) false none (some k) =
        ⟨rows.take (min rows.length n), min rows.length n, true, true,
         .completed⟩) ∧
    (k = 0 →
      Pipe.gen_data_source rows chunk (n : Int) false none (some k) =
        ⟨[], 0, false, false, .abandoned⟩) := by
  refine ⟨fun hk hle => ?_, fun hgt => ?_, fun hk0 => ?_⟩
  · rw [Pipe.gen_data_source]
    rw [if_neg (show ¬(some k = some 0) by simp; omega), if_neg (by simp),
      if_neg (show ¬((n : Int) = -1) by omega)]
    obtain ⟨wA, _⟩ := while_limited_budget chunk n hchunk rows 0 1 k hk
    rw [wA (by simpa using hle)]
    simp
  · rw [Pipe.gen_data_source]
    rw [if_neg (show ¬(some k = some 0) by simp; omega), if_neg (by simp),
      if_neg (show ¬((n : Int) = -1) by omega)]
    obtain ⟨_, wB⟩ := while_limited_budget chunk n hchunk rows 0 1 k (by omega)
    rw [wB (by simpa using hgt)]
    simp
  · subst hk0
    rw [Pipe.gen_data_source]
    rw [if_pos rfl]

theorem gen_none_run {α : Type} (rows : List α) (chunk n : Nat)
    (hchunk : 0 < chunk) :
    Pipe.gen_data_source rows chunk (n : Int) false none none =
      ⟨rows.take (min rows.length n), min rows.length n, true, true,
       .completed⟩ := by
  rw [Pipe.gen_data_source]
  rw [if_neg (by simp), if_neg (by simp),
    if_neg (show ¬((n : Int) = -1) by omega)]
  rw [while_limited_none chunk n hchunk rows 0 1]
  simp

/-- C7 (amended): over any run of `gen_data_source` with a non-negative
limit, `transfer_count` is monotone in the consumer's progress and never
exceeds the limit; on full consumption it equals the number of records
yielded; but while the generator is suspended at a `yield` (the consumer
abandoned after `k ≥ 1` pulls mid-stream) it equals the number of records
pulled so far minus one, because the `transfer_count += 1` after a `yield`
only runs when the generator is resumed. -/
theorem C7_transfer_count_amended :
    ∀ {α : Type} (rows : List α) (chunk n k : Nat), 0 < chunk →
      ((Pipe.gen_data_source rows chunk (n : Int) false none (some k)).count ≤
        (Pipe.gen_data_source rows chunk (n : Int) false none
          (some (k + 1))).count) ∧
      ((Pipe.gen_data_source rows chunk (n : Int) false none (some k)).count ≤
        (Pipe.gen_data_source rows chunk (n : Int) false none none).count) ∧
      ((Pipe.gen_data_source rows chunk (n : Int) false none
        (some k)).count ≤ n) ∧
      ((Pipe.gen_data_source rows chunk (n : Int) false none none).count =
        min rows.length n ∧
       (Pipe.gen_data_source rows chunk (n : Int) false none none).count =
        (Pipe.gen_data_source rows chunk (n : Int) false none
          none).yielded.length) ∧
      (1 ≤ k →
        (Pipe.gen_data_source rows chunk (n : Int) false none
          (some k)).exit = .abandoned →
        (Pipe.gen_data_source rows chunk (n : Int) false none
          (some k)).count + 1 =
        (Pipe.gen_data_source rows chunk (n : Int) false none
          (some k)).yielded.length) ∧
      ((Pipe.gen_data_source rows chunk (n : Int) false none
          (some k)).exit = .completed →
        (Pipe.gen_data_source rows chunk (n : Int) false none
          (some k)).count =
        (Pipe.gen_data_source rows chunk (n : Int) false none
          (some k)).yielded.length) := by
  intro α rows chunk n k hchunk
  obtain ⟨bA, bB, bC⟩ := gen_budget_run rows chunk n k hchunk
  obtain ⟨bA1, bB1, _⟩ := gen_budget_run rows chunk n (k + 1) hchunk
  have hnone := gen_none_run rows chunk n hchunk
  have hc4 : (Pipe.gen_data_source rows chunk (n : Int) false none
      none).count = min rows.length n ∧
      (Pipe.gen_data_source rows chunk (n : Int) false none none).count =
      (Pipe.gen_data_source rows chunk (n : Int) false none
        none).yielded.length := by
    rw [hnone]
    refine ⟨rfl, ?_⟩
    simp only [List.length_take]
    omega
  rcases Nat.eq_zero_or_pos k with hk0 | hkpos
  · subst hk0
    rw [bC rfl]
    refine ⟨Nat.zero_le _, Nat.zero_le _, Nat.zero_le _, hc4,
      fun hk1 _ => by omega, fun hex => ?_⟩
    simp at hex
  · by_cases hle : k ≤ min rows.length n
    · rw [bA hkpos hle]
      refine ⟨?_, ?_, ?_, hc4, fun _ _ => ?_, fun hex => ?_⟩
      · by_cases hle1 : k + 1 ≤ min rows.length n
        · rw [bA1 (by omega) hle1]
          simp only []
          omega
        · rw [bB1 (by omega)]
          simp only []
          omega
      · rw [hnone]
        simp only []
        omega
      · simp only []
        omega
      · simp only [List.length_take]
        omega
      · simp at hex
    · rw [bB (by omega)]
      refine ⟨?_, ?_, ?_, hc4, fun _ hex => ?_, fun _ => ?_⟩
      · rw [bB1 (by omega)]
      · rw [hnone]
      · simp only []
        omega
      · simp at hex
      · simp only [List.length_take]
        omega

/-- Witness for C7 (amended) at a concrete run. -/
theorem C7_transfer_count_amended_witness :
    (0 < 2) ∧
    ((Pipe.gen_data_source [10, 20] 2 ((5 : Nat) : Int) false none
        (some 1)).count ≤
      (Pipe.gen_data_source [10, 20] 2 ((5 : Nat) : Int) false none
        (some 2)).count) ∧
    ((Pipe.gen_data_source [10, 20] 2 ((5 : Nat) : Int) false none
        (some 1)).count ≤
      (Pipe.gen_data_source [10, 20] 2 ((5 : Nat) : Int) false none
        none).count) ∧
    ((Pipe.gen_data_source [10, 20] 2 ((5 : Nat) : Int) false none
      (some 1)).count ≤ 5) ∧
    ((Pipe.gen_data_source [10, 20] 2 ((5 : Nat) : Int) false none
        none).count = min ([10, 20] : List Nat).length 5 ∧
     (Pipe.gen_data_source [10, 20] 2 ((5 : Nat) : Int) false none
        none).count =
      (Pipe.gen_data_source [10, 20] 2 ((5 : Nat) : Int) false none
        none).yielded.length) ∧
    (1 ≤ 1 →
      (Pipe.gen_data_source [10, 20] 2 ((5 : Nat) : Int) false none
        (some 1)).exit = .abandoned →
      (Pipe.gen_data_source [10, 20] 2 ((5 : Nat) : Int) false none
        (some 1)).count + 1 =
      (Pipe.gen_data_source [10, 20] 2 ((5 : Nat) : Int) false none
        (some 1)).yielded.length) ∧
    ((Pipe.gen_data_source [10, 20] 2 ((5 : Nat) : Int) false none
        (some 1)).exit = .completed →
      (Pipe.gen_data_source [10, 20] 2 ((5 : Nat) : Int) false none
        (some 1)).count =
      (Pipe.gen_data_source [10, 20] 2 ((5 : Nat) : Int) false none
        (some 1)).yielded.length) :=
  ⟨by decide, C7_transfer_count_amended [10, 20] 2 5 1 (by decide)⟩

/-- Counterexample to C7 as stated: after the consumer has pulled 1 record
from a 2-record source (limit 5), `transfer_count` is 0, not 1 — the count
lags the number of pulled records while the generator is suspended at the
`yield`. -/
theorem C7_transfer_count_counterexample :
    (Pipe.gen_data_source [10, 20] 500 ((5 : Nat) : Int) false none
      (some 1)).yielded.length = 1 ∧
    (Pipe.gen_data_source [10, 20] 500 ((5 : Nat) : Int) false none
      (some 1)).count = 0 ∧
    (Pipe.gen_data_source [10, 20] 500 ((5 : Nat) : Int) false none
        (some 1)).count ≠
      (Pipe.gen_data_source [10, 20] 500 ((5 : Nat) : Int) false none
        (some 1)).yielded.length := by
  obtain ⟨bA, -, -⟩ := gen_budget_run ([10, 20] : List Nat) 500 5 1 (by norm_num)
  rw [bA le_rfl (by norm_num)]
  refine ⟨rfl, rfl, by simp⟩

/-- C4 (amended): the cursor is closed on normal exhaustion and on the
limit-stop, in both the limited and unbounded branches; but when connection
setup / `execute` raises, when a `fetchmany` raises, or when the consumer
abandons the generator while it is suspended mid-stream, control never
reaches `pg_cursor.close()` — the cursor is opened and never closed. -/
theorem C4_cursor_scope_amended :
    ∀ {α : Type} (rows : List α) (chunk n k : Nat), 0 < chunk →
      (Pipe.gen_data_source rows chunk (n : Int) false none
        none).closed = true ∧
      (Pipe.gen_data_source rows chunk (-1) false none none).closed = true ∧
      ((Pipe.gen_data_source rows chunk (n : Int) true none none).opened =
          true ∧
        (Pipe.gen_data_source rows chunk (n : Int) true none none).closed =
          false) ∧
      (0 < n →
        (Pipe.gen_data_source rows chunk (n : Int) false (some 1)
          none).opened = true ∧
        (Pipe.gen_data_source rows chunk (n : Int) false (some 1)
          none).closed = false) ∧
      (1 ≤ k → k ≤ min rows.length n →
        (Pipe.gen_data_source rows chunk (n : Int) false none
          (some k)).opened = true ∧
        (Pipe.gen_data_source rows chunk (n : Int) false none
          (some k)).closed = false) := by
  intro α rows chunk n k hchunk
  obtain ⟨bA, -, -⟩ := gen_budget_run rows chunk n k hchunk
  refine ⟨?_, ?_, ?_, fun hn => ?_, fun hk hle => ?_⟩
  · rw [gen_none_run rows chunk n hchunk]
  · rw [Pipe.gen_data_source]
    rw [if_neg (by simp), if_neg (by simp), if_pos rfl]
    rw [while_unlimited_none chunk hchunk rows 0 1]
  · rw [Pipe.gen_data_source]
    rw [if_neg (by simp), if_pos rfl]
    exact ⟨rfl, rfl⟩
  · rw [Pipe.gen_data_source]
    rw [if_neg (by simp), if_neg (by simp),
      if_neg (show ¬((n : Int) = -1) by omega)]
    rw [Pipe.while_limited]
    have hn0 : ¬((n : Int) ≤ ((0 : Nat) : Int)) := by
      push_neg
      exact_mod_cast hn
    rw [if_neg hn0]
    rw [if_pos rfl]
    exact ⟨rfl, rfl⟩
  · rw [bA hk hle]
    exact ⟨rfl, rfl⟩

/-- Witness for C4 (amended) at a concrete run. -/
theorem C4_cursor_scope_amended_witness :
    (0 < 2 ∧ 0 < 5 ∧ 1 ≤ 1 ∧ 1 ≤ min ([10, 20] : List Nat).length 5) ∧
    ((Pipe.gen_data_source [10, 20] 2 ((5 : Nat) : Int) false none
        none).closed = true ∧
      (Pipe.gen_data_source [10, 20] 2 (-1) false none none).closed = true ∧
      ((Pipe.gen_data_source [10, 20] 2 ((5 : Nat) : Int) true none
          none).opened = true ∧
        (Pipe.gen_data_source [10, 20] 2 ((5 : Nat) : Int) true none
          none).closed = false) ∧
      (0 < 5 →
        (Pipe.gen_data_source [10, 20] 2 ((5 : Nat) : Int) false (some 1)
          none).opened = true ∧
        (Pipe.gen_data_source [10, 20] 2 ((5 : Nat) : Int) false (some 1)
          none).closed = false) ∧
      (1 ≤ 1 → 1 ≤ min ([10, 20] : List Nat).length 5 →
        (Pipe.gen_data_source [10, 20] 2 ((5 : Nat) : Int) false none
          (some 1)).opened = true ∧
        (Pipe.gen_data_source [10, 20] 2 ((5 : Nat) : Int) false none
          (some 1)).closed = false)) :=
  ⟨⟨by decide, by decide, by decide, by decide⟩,
   C4_cursor_scope_amended [10, 20] 2 5 1 (by decide)⟩

/-- Counterexample to C4 as stated: when the first `fetchmany` raises (and
likewise when connection setup raises), the cursor has been opened but
`pg_cursor.close()` is never reached — the failure exit path leaks the
cursor. -/
theorem C4_cursor_scope_counterexample :
    ((Pipe.gen_data_source [1, 2] 500 ((5 : Nat) : Int) false (some 1)
        none).opened = true ∧
      (Pipe.gen_data_source [1, 2] 500 ((5 : Nat) : Int) false (some 1)
        none).closed = false) ∧
    ((Pipe.gen_data_source [1, 2] 500 ((5 : Nat) : Int) true none
        none).opened = true ∧
      (Pipe.gen_data_source [1, 2] 500 ((5 : Nat) : Int) true none
        none).closed = false) := by
  constructor
  · rw [Pipe.gen_data_source]
    rw [if_neg (by simp), if_neg (by simp),
      if_neg (show ¬(((5 : Nat) : Int) = -1) by omega)]
    rw [Pipe.while_limited]
    rw [if_neg (show ¬(((5 : Nat) : Int) ≤ ((0 : Nat) : Int)) by decide)]
    rw [if_pos rfl]
    exact ⟨rfl, rfl⟩
  · rw [Pipe.gen_data_source]
    rw [if_neg (by simp), if_pos rfl]
    exact ⟨rfl, rfl⟩
